import Mathlib

/-!
Shallow embedding of the final ("v3.0, true chapter splitting") EPUB parser of
`supabase/functions/add-new-book/index.ts` (the version of the source file that
begins at the third `import` block, line 2551, and ends at the HTTP handler).
The embedding covers the pure parsing pipeline `parseEpubContent` together with
its helpers (`countWords`, `isFrontMatterPage`, `calculateKeywordDensity`,
`isFrontMatterTitle`, `resolveHref`, `extractPackagePathFast`,
`parsePackageDocumentFast`/`parsePackageDocumentRegex`, the navigation and NCX
parsers, and `processEpubResourcesFast`).

Modelling conventions:
* the ZIP extraction step (`extractZipFiles`, a thin wrapper over the
  third-party `fflate` library) is modelled by taking the extracted
  path-to-bytes mapping itself as the parser input; file bytes are modelled as
  Lean strings and the `TextDecoder` UTF-8 decoding step as the identity;
* the lazily imported third-party libraries (fast-xml-parser, html-to-text,
  node-html-parser) and the runtime environment (clock, PRNG, `btoa`) are
  explicit parameters (`EpubOps`, `ParseEnv`); the source regular-expression
  fallback paths are embedded concretely;
* the regular expressions of the source are executed by a small matcher below
  whose pattern language covers exactly the constructs those literals use.
-/

namespace BibEpub

/-- Lowercasing as performed by JavaScript `toLowerCase` on the character
ranges relevant to this code base: ASCII letters plus the Latin-1 accented
capital letters (so that the case-insensitive regex flag and `toLowerCase`
agree on the French vocabulary used by the classifier). -/
def jsToLower (c : Char) : Char :=
  if 'A' ≤ c && c ≤ 'Z' then Char.ofNat (c.toNat + 32)
  else if 'À' ≤ c && c ≤ 'Þ' && c ≠ '×' then Char.ofNat (c.toNat + 32)
  else c

/-- JavaScript `String.prototype.toLowerCase`, restricted as in `jsToLower`. -/
def lowerStr (s : String) : String := String.mk (s.data.map jsToLower)

/-- Whitespace class of JavaScript regular expressions (`\s`) and of
`String.prototype.trim`, restricted to the characters that can occur here. -/
def isJsSpace (c : Char) : Bool :=
  c == ' ' || c == '\t' || c == '\n' || c == '\r' || c == '\x0b' ||
  c == '\x0c' || c == ' '

/-- JavaScript `String.prototype.trim`. -/
def jsTrim (s : String) : String :=
  String.mk (((s.data.dropWhile isJsSpace).reverse.dropWhile isJsSpace).reverse)

/-- Splitting on `/\s+/` as JavaScript `split` does: the (possibly empty)
segments between maximal whitespace runs, one character at a time with a
flag marking that the previous character was part of a whitespace run. -/
def splitWsGo : List Char → List Char → Bool → List (List Char)
  | [], acc, _ => [acc.reverse]
  | c :: cs, acc, prevSpace =>
    if isJsSpace c then
      if prevSpace then splitWsGo cs acc true
      else acc.reverse :: splitWsGo cs [] true
    else splitWsGo cs (c :: acc) false

/-- JavaScript `s.split(/\s+/)`. -/
def splitWs (s : String) : List (List Char) := splitWsGo s.data [] false

/-- Source `countWords` (line 3253):
`text.trim().split(/\s+/).filter(word => word.length > 0).length`. -/
def countWords (text : String) : Nat :=
  ((splitWs (jsTrim text)).filter (fun w => w.length > 0)).length

/-- JavaScript `String.prototype.includes` (substring containment). -/
def containsSubL (needle : List Char) : List Char → Bool
  | [] => needle.isEmpty
  | c :: cs => needle.isPrefixOf (c :: cs) || containsSubL needle cs

/-- JavaScript `hay.includes(needle)`. -/
def containsSub (hay needle : String) : Bool := containsSubL needle.data hay.data

/-- Number of matches of a fixed-word global regex such as `/<img/gi` (the
word has no self-overlap, so counting case-insensitive prefix positions agrees
with the global-match count). -/
def countOccurCI (needle : List Char) : List Char → Nat
  | [] => 0
  | c :: cs =>
    (if needle.isPrefixOf ((c :: cs).map jsToLower) then 1 else 0) +
      countOccurCI needle cs

/-! A small matcher for the regular-expression literals of the source.  Every
quantifier in those literals ranges over a single character class, which the
pattern language below reflects; matching is case-insensitive (all the
classifier literals carry the `i` flag). -/

/-- Character classes appearing in the source regex literals. -/
inductive CC where
  | set : List Char → CC
  | rng : Char → Char → CC
  | space : CC
  | digit : CC
  | union : CC → CC → CC

/-- Class membership, on the lowercased character (`i` flag). -/
def ccMatch : CC → Char → Bool
  | .set cs, c => cs.contains (jsToLower c)
  | .rng a b, c => a ≤ jsToLower c && jsToLower c ≤ b
  | .space, c => isJsSpace c
  | .digit, c => '0' ≤ c && c ≤ '9'
  | .union x y, c => ccMatch x c || ccMatch y c

/-- Pattern language covering the source literals: sequencing, alternation,
optional groups, and class quantifiers. -/
inductive Rx where
  | eps : Rx
  | lit : Char → Rx
  | cls : CC → Rx
  | seq : Rx → Rx → Rx
  | alt : Rx → Rx → Rx
  | opt : Rx → Rx
  | star : CC → Rx
  | plus : CC → Rx
  | rep : CC → Nat → Rx

/-- Match some (possibly empty) run of class characters, then continue; the
result is match existence, so greedy and lazy order coincide. -/
def starLoop (cc : CC) : List Char → (List Char → Bool) → Bool
  | s, k =>
    k s ||
      match s with
      | [] => false
      | a :: s2 => ccMatch cc a && starLoop cc s2 k

/-- Match exactly `n` class characters, then continue. -/
def repMatch (cc : CC) : Nat → List Char → (List Char → Bool) → Bool
  | 0, s, k => k s
  | Nat.succ n, s, k =>
    match s with
    | [] => false
    | a :: s2 => ccMatch cc a && repMatch cc n s2 k

/-- Continuation-passing matcher; `k` receives the unconsumed suffix. -/
def matchCont : Rx → List Char → (List Char → Bool) → Bool
  | .eps, s, k => k s
  | .lit _, [], _ => false
  | .lit c, a :: s, k => (jsToLower a == jsToLower c) && k s
  | .cls _, [], _ => false
  | .cls cc, a :: s, k => ccMatch cc a && k s
  | .seq r1 r2, s, k => matchCont r1 s (fun s2 => matchCont r2 s2 k)
  | .alt r1 r2, s, k => matchCont r1 s k || matchCont r2 s k
  | .opt r, s, k => matchCont r s k || k s
  | .star cc, s, k => starLoop cc s k
  | .plus cc, s, k =>
    match s with
    | [] => false
    | a :: s2 => ccMatch cc a && starLoop cc s2 k
  | .rep cc n, s, k => repMatch cc n s k

/-- Test of a `/^...$/` literal: the whole string matches. -/
def rxFull (r : Rx) (s : String) : Bool := matchCont r s.data List.isEmpty

/-- Test of a `/^.../` literal (anchored start, free end). -/
def rxStart (r : Rx) (s : String) : Bool := matchCont r s.data (fun _ => true)

/-- Literal word as a pattern (matched case-insensitively). -/
def rlit (w : String) : Rx := w.data.foldr (fun c acc => Rx.seq (Rx.lit c) acc) Rx.eps

/-- Sequence of patterns. -/
def rseq (l : List Rx) : Rx := l.foldr Rx.seq Rx.eps

/-- Alternation of a non-empty pattern list (empty list never matches). -/
def altList : List Rx → Rx
  | [] => Rx.cls (CC.set [])
  | [r] => r
  | r :: rs => Rx.alt r (altList rs)

/-- `\s+` -/
def wsP : Rx := Rx.plus CC.space

/-- `\s*` -/
def wsS : Rx := Rx.star CC.space

/-- `[- ]` -/
def dashSpace : CC := CC.set ['-', ' ']

/-- The apostrophe class `[''']` of the source (three identical ASCII
apostrophes, character code 39). -/
def aposCC : CC := CC.set [Char.ofNat 39]

/-- `[a-zàâäéèêëïîôöùûü\s\-]` -/
def frNameCC : CC :=
  CC.union (CC.rng 'a' 'z')
    (CC.union (CC.set ['à', 'â', 'ä', 'é', 'è', 'ê', 'ë', 'ï', 'î', 'ô', 'ö', 'ù', 'û', 'ü'])
      (CC.union CC.space (CC.set ['-'])))

/-- The `frontMatterPatterns` regex list of `isFrontMatterPage` (source lines
3054-3113), in source order; the boolean is `true` for the `/^...$/` literals
and `false` for the `/^.../` (prefix-anchored) ones. -/
def frontMatterPatterns : List (Bool × Rx) := [
  (true, rseq [Rx.opt (rseq [rlit "albert", wsP]), rlit "camus", wsS]),
  (true, rseq [Rx.opt (rseq [rlit "antoine", wsP, rlit "de", wsP]),
               rlit "saint", Rx.cls dashSpace, rlit "exupéry", wsS]),
  (true, rseq [rlit "gustave", wsP, rlit "flaubert", wsS]),
  (true, rseq [rlit "victor", wsP, rlit "hugo", wsS]),
  (true, rseq [rlit "émile", wsP, rlit "zola", wsS]),
  (true, rseq [rlit "marcel", wsP, rlit "proust", wsS]),
  (true, rseq [rlit "l", Rx.cls aposCC, rlit "étranger", wsS]),
  (true, rseq [Rx.opt (rseq [rlit "le", wsP]), rlit "petit", Rx.cls dashSpace,
               rlit "prince", wsS]),
  (true, rseq [rlit "madame", wsP, rlit "bovary", wsS]),
  (true, rseq [rlit "les", wsP, rlit "misérables", wsS]),
  (true, rseq [rlit "à", wsP, rlit "la", wsP, rlit "recherche", wsP, rlit "du", wsP,
               rlit "temps", wsP, rlit "perdu", wsS]),
  (true, rseq [rlit "the", wsP, rlit "stranger", wsS]),
  (true, rseq [rlit "the", wsP, rlit "little", wsP, rlit "prince", wsS]),
  (true, rseq [Rx.lit '(', Rx.rep CC.digit 4, Rx.lit ')', wsS]),
  (true, rseq [Rx.rep CC.digit 4, wsS]),
  (false, rseq [Rx.alt (rlit "publié") (rlit "published"), wsP, rlit "en", wsP,
                Rx.rep CC.digit 4]),
  (true, rseq [altList [rlit "première", rlit "deuxième", rlit "troisième"], wsP,
               rlit "partie", wsS]),
  (true, rseq [rlit "part", wsP,
               altList [rlit "one", rlit "two", rlit "three", Rx.plus (CC.set ['i'])], wsS]),
  (true, rseq [rlit "partie", wsP, Rx.plus CC.digit, wsS]),
  (true, rseq [rlit "chapitre", wsP, Rx.plus CC.digit, wsS]),
  (true, rseq [rlit "chapter", wsP, Rx.plus CC.digit, wsS]),
  (true, rseq [altList [rlit "prologue", rlit "épilogue", rlit "epilogue"], wsS]),
  (false, altList [rlit "copyright", rlit "©", rlit "(c)"]),
  (false, Rx.alt (rseq [rlit "tous", wsP, rlit "droits", wsP, rlit "réservés"])
                 (rseq [rlit "all", wsP, rlit "rights", wsP, rlit "reserved"])),
  (false, Rx.alt (rseq [rlit "édition", Rx.opt (rlit "s")])
                 (rseq [rlit "publishe", Rx.opt (rlit "r")])),
  (true, rseq [altList [rseq [rlit "table", wsP, rlit "de", Rx.opt (rlit "s"), wsP,
                              rlit "matière", Rx.opt (rlit "s")],
                        rseq [rlit "content", Rx.opt (rlit "s")],
                        rlit "sommaire"], wsS]),
  (false, Rx.alt (rseq [rlit "à", wsP, rlit "propos", wsP, rlit "de", wsP,
                        rlit "cette", wsP, rlit "édition"])
                 (rseq [rlit "about", wsP, rlit "this", wsP, rlit "edition"])),
  (true, rseq [rlit "à", wsP, Rx.plus frNameCC]),
  (false, Rx.alt (rseq [rlit "cher", wsP, rlit "et", wsP, rlit "illustre", wsP, rlit "ami"])
                 (rseq [rlit "dear", wsP, rlit "friend"])),
  (false, Rx.alt (rseq [rlit "membre", wsP, rlit "du", wsP, rlit "barreau"])
                 (rseq [rlit "member", wsP, rlit "of", wsP, rlit "the", wsP, rlit "bar"])),
  (false, Rx.alt (rseq [rlit "permettez", Rx.cls dashSpace, rlit "moi"])
                 (rseq [rlit "allow", wsP, rlit "me"])),
  (true, rseq [Rx.plus (CC.set ['i', 'v', 'x', 'l', 'c']), wsS]),
  (true, rseq [Rx.plus CC.digit, wsS]),
  (true, rseq [Rx.cls (CC.rng 'a' 'z'), wsS]),
  (true, rseq [altList [rseq [rlit "dédicac", Rx.opt (rlit "e")],
                        rlit "dedication",
                        rseq [rlit "avant", Rx.cls dashSpace, rlit "propos"],
                        rlit "foreword", rlit "préface", rlit "preface"], wsS]),
  (true, rseq [altList [rseq [rlit "remerciement", Rx.opt (rlit "s")],
                        rseq [rlit "acknowledgment", Rx.opt (rlit "s")]], wsS]),
  (true, rseq [altList [rlit "introduction", rlit "présentation"], wsS])]

/-- Test one entry of `frontMatterPatterns` against a string. -/
def fmPatternTest (p : Bool × Rx) (s : String) : Bool :=
  if p.1 then rxFull p.2 s else rxStart p.2 s

/-- The keyword list of rule 4 of `isFrontMatterPage` (source lines 3122-3125). -/
def fmKeywords : List String :=
  ["albert", "camus", "étranger", "stranger", "saint-exupéry", "petit prince",
   "little prince", "première partie", "deuxième partie", "part one", "part two"]

/-- Source `calculateKeywordDensity` (lines 3143-3153), returned as the pair
(keyword match total, word count) instead of their floating-point quotient;
comparisons against the quotient are stated with exact rational arithmetic. -/
def calculateKeywordDensity (text : String) (keywords : List String) : Nat × Nat :=
  let words := (splitWs text).filter (fun w => w.length > 0)
  let km := keywords.foldl
    (fun count keyword =>
      count +
        (if containsSub text (lowerStr keyword) then (splitWs keyword).length
         else 0))
    0
  (km, words.length)

/-- Source `isFrontMatterPage` (lines 3037-3140).  The last argument models the
JavaScript property access `manifestItem?.linear` on whatever object the caller
passed.  Rules in source order: word count below 20, spine `linear="no"`,
whole-text front-matter patterns, keyword density above 70 percent, image-heavy
short pages.  The density and image-ratio comparisons are stated with exact
rational arithmetic in place of IEEE division (the two agree on all inputs
whose denominators are of realistic size). -/
def isFrontMatterPage (htmlContent textContent : String) (wordCount : Nat)
    (manifestItemLinear : Option String) : Bool :=
  let lowerText := jsTrim (lowerStr textContent)
  let normalizedText := jsTrim textContent
  if wordCount < 20 then true
  else if manifestItemLinear == some "no" then true
  else if frontMatterPatterns.any (fun p => fmPatternTest p normalizedText) then true
  else
    let kd := calculateKeywordDensity lowerText fmKeywords
    if kd.2 ≠ 0 && 10 * kd.1 > 7 * kd.2 then true
    else
      let imgCount := countOccurCI "<img".data htmlContent.data
      if 2 * imgCount > max wordCount 1 && wordCount < 50 then true
      else false

/-- The fixed title vocabulary of `isFrontMatterTitle` (source lines 3159-3177). -/
def frontMatterTitles : List String :=
  ["cover", "title page", "copyright", "dedication", "acknowledgments",
   "table of contents", "contents", "preface", "foreword", "introduction",
   "prologue", "about the author", "about this book",
   "couverture", "page de titre", "droits", "dédicace", "remerciements",
   "table des matières", "sommaire", "préface", "avant-propos",
   "prologue", "à propos de l\x27auteur",
   "part one", "part two", "part three", "part i", "part ii", "part iii",
   "première partie", "deuxième partie", "troisième partie",
   "partie 1", "partie 2", "partie 3",
   "", "untitled", "sans titre"]

/-- Source `isFrontMatterTitle` (lines 3156-3184). -/
def isFrontMatterTitle (title : String) : Bool :=
  let normalizedTitle := jsTrim (lowerStr title)
  frontMatterTitles.any (fun frontMatter =>
    normalizedTitle == frontMatter ||
    (frontMatter ++ " ").data.isPrefixOf normalizedTitle.data ||
    (" " ++ frontMatter).data.isSuffixOf normalizedTitle.data)

/-! Dynamic values, modelling the output shapes of the third-party
fast-xml-parser library as consumed by the `...Fast` functions of the source.
Scalar leaves are modelled as strings (the attribute and text values the
pipeline reads). -/

/-- A JavaScript value as handled by the dynamically typed `...Fast` parsing
functions. -/
inductive JsVal where
  | undef : JsVal
  | str : String → JsVal
  | arr : List JsVal → JsVal
  | obj : List (String × JsVal) → JsVal

/-- JavaScript truthiness for the modelled value shapes. -/
def jsTruthy : JsVal → Bool
  | .undef => false
  | .str s => !s.isEmpty
  | .arr _ => true
  | .obj _ => true

/-- Property access `v[k]` on a defined value: object lookup; on strings and
arrays a non-index key yields `undefined`. -/
def jsField : JsVal → String → JsVal
  | .obj fs, k => ((fs.find? (fun p => p.1 == k)).map Prod.snd).getD JsVal.undef
  | _, _ => (.undef)

/-- Property access `v[k]`, raising `TypeError` when `v` is `undefined`. -/
def jsGet : JsVal → String → Except String JsVal
  | .undef, k => .error ("TypeError: cannot read properties of undefined: " ++ k)
  | v, k => .ok (jsField v k)

/-- Optional chaining `v?.[k]`. -/
def jsOptGet (v : JsVal) (k : String) : JsVal :=
  match v with
  | .undef => .undef
  | w => jsField w k

/-- JavaScript `a || b`. -/
def jsOr (a b : JsVal) : JsVal := if jsTruthy a then a else b

/-- `Array.isArray`. -/
def jsIsArray : JsVal → Bool
  | .arr _ => true
  | _ => false

/-- Indexing `v[i]`, raising `TypeError` when `v` is `undefined`. -/
def jsIndex : JsVal → Nat → Except String JsVal
  | .undef, _ => .error "TypeError: cannot index undefined"
  | .arr xs, i => .ok ((xs.get? i).getD .undef)
  | _, _ => .ok (.undef)

/-- The string content of a scalar leaf (leaves are strings in this model). -/
def asStr : JsVal → String
  | .str s => s
  | _ => ""

/-- Coercion of a value used as an object key (`files[packagePath]` with a
possibly `undefined` path): JavaScript stringifies the key. -/
def jsKeyString : JsVal → String
  | .undef => "undefined"
  | .str s => s
  | _ => ""

/-- Worker of `splitOnC`: accumulate the current piece (reversed). -/
def splitOnCGo (sep : Char) : List Char → List Char → List (List Char)
  | [], acc => [acc.reverse]
  | c :: cs, acc =>
    if c == sep then acc.reverse :: splitOnCGo sep cs []
    else splitOnCGo sep cs (c :: acc)

/-- JS `String.split` with a one-character separator string (every `split` in
the source uses one: `' '`, `'#'`, `'.'`): the pieces between separator
occurrences, empty pieces kept, `[s]` when the separator is absent. -/
def splitOnC (sep : Char) (s : String) : List String :=
  (splitOnCGo sep s.data []).map String.mk

/-- `v?.split(' ')` as used on the `properties` attribute: `undefined` short
circuits, strings split on single spaces, anything else would raise. -/
def jsSplitSpace : JsVal → Except String (Option (List String))
  | .undef => .ok none
  | .str s => .ok (some (splitOnC ' ' s))
  | _ => .error "TypeError: split is not a function"

/-! The data model records of the source (TS interfaces at lines 2592-2679 and
3607-3617).  Note that `ManifestItem` has no `linear` field: in the source the
spine `linear` attribute lives only on `RawSpineItem`. -/

/-- TS `ManifestItem` (source lines 3607-3612). -/
structure ManifestItem where
  id : String
  href : String
  mediaType : String
  properties : Option (List String)
deriving DecidableEq, Repr

/-- TS `RawSpineItem` (source lines 3614-3617). -/
structure RawSpineItem where
  idref : String
  linear : Option String
deriving DecidableEq, Repr

mutual
/-- TS `TocEntry` (source lines 2629-2636); the optional `children` array is
modelled as a (mutually inductive) forest — an absent and an empty children
array behave identically in every consumer, and the mutual shape admits the
structural recursion of the tree walks below. -/
inductive TocEntry where
  | mk : (id title href : String) → (level : Nat) → (playOrder : Int) →
      (children : TocForest) → TocEntry

/-- A `TocEntry[]` array. -/
inductive TocForest where
  | nil : TocForest
  | cons : TocEntry → TocForest → TocForest
end

def TocEntry.id : TocEntry → String
  | .mk v _ _ _ _ _ => v

def TocEntry.title : TocEntry → String
  | .mk _ v _ _ _ _ => v

def TocEntry.href : TocEntry → String
  | .mk _ _ v _ _ _ => v

def TocEntry.level : TocEntry → Nat
  | .mk _ _ _ v _ _ => v

def TocEntry.playOrder : TocEntry → Int
  | .mk _ _ _ _ v _ => v

def TocEntry.children : TocEntry → TocForest
  | .mk _ _ _ _ _ v => v

/-- `array.length` on a forest. -/
def TocForest.length : TocForest → Nat
  | .nil => 0
  | .cons _ rest => 1 + rest.length

/-- Concatenation of forests. -/
def TocForest.append : TocForest → TocForest → TocForest
  | .nil, g => g
  | .cons e f, g => .cons e (f.append g)

/-- `array.push(entry)`. -/
def TocForest.push (f : TocForest) (e : TocEntry) : TocForest :=
  f.append (.cons e .nil)

/-- TS `Chapter` (source lines 2638-2647). -/
structure Chapter where
  id : String
  title : String
  href : String
  htmlContent : String
  textContent : String
  wordCount : Nat
  order : Nat
  level : Nat
deriving DecidableEq, Repr

/-- TS `SpineItem` (source lines 2649-2655), the serialized spine. -/
structure SpineItem where
  id : String
  href : String
  mediaType : String
  linear : Bool
  properties : Option (List String)
deriving DecidableEq, Repr

/-- TS `ImageResource` (source lines 2657-2666; the unused optional display
fields are omitted). -/
structure ImageResource where
  id : String
  href : String
  mediaType : String
  base64 : Option String
deriving DecidableEq, Repr

/-- TS `FontResource` (source lines 2668-2674). -/
structure FontResource where
  id : String
  href : String
  mediaType : String
  fontFamily : String
  isObfuscated : Bool
deriving DecidableEq, Repr

/-- The `resources` record built by `processEpubResourcesFast` (lines 3934-3939). -/
structure EpubResources where
  coverImage : Option String
  images : List ImageResource
  stylesheets : List String
  fonts : List FontResource
deriving DecidableEq, Repr

/-- The metadata record of `parsePackageDocumentFast`/`parsePackageDocumentRegex`
(dynamically typed in the source, hence `JsVal` fields). -/
structure PackageMetadata where
  title : JsVal
  creator : JsVal
  language : JsVal
  identifier : JsVal
  publisher : JsVal
  date : JsVal
  description : JsVal
  subject : JsVal
  rights : JsVal
  source : JsVal

/-- Return value of the package document parsers. -/
structure PackageData where
  metadata : PackageMetadata
  manifest : List ManifestItem
  spine : List RawSpineItem
  version : String

/-- `EpubContent.metadata` as assembled by the orchestrator (lines 3529-3540). -/
structure EpubMetadata where
  title : JsVal
  author : JsVal
  language : JsVal
  identifier : JsVal
  publisher : JsVal
  publishedDate : JsVal
  description : JsVal
  subject : List JsVal
  rights : JsVal
  source : JsVal

/-- `EpubContent.structure` (lines 3541-3553). -/
structure EpubStructure where
  totalChapters : Nat
  estimatedReadingTime : Nat
  wordCount : Nat
  tableOfContents : TocForest
  spine : List SpineItem

/-- `EpubContent.parsing` (lines 3556-3562). -/
structure ParsingInfo where
  parsedAt : String
  epubVersion : String
  parser : String
  errors : Option (List String)
  warnings : Option (List String)
deriving DecidableEq, Repr

/-- TS `EpubContent` (lines 2592-2627), the parser output document. -/
structure EpubContent where
  metadata : EpubMetadata
  struct : EpubStructure
  chapters : List Chapter
  resources : EpubResources
  parsing : ParsingInfo

/-! Scanners realizing the concrete regex fallback paths of the source. -/

/-- The apostrophe character (code 39). -/
def aposChar : Char := Char.ofNat 39

/-- Quote class `["']` of the attribute-value regexes. -/
def isQuote (c : Char) : Bool := c == '"' || c == aposChar

/-- Try a partial match at every start position, leftmost first (the scan the
JavaScript regex engine performs for an unanchored literal). -/
def scanFirst (f : List Char → Option α) : List Char → Option α
  | [] => f []
  | c :: cs =>
    match f (c :: cs) with
    | some r => some r
    | none => scanFirst f cs

/-- Case-sensitive literal prefix; returns the rest. -/
def stripPrefixCS (pat s : List Char) : Option (List Char) :=
  if pat.isPrefixOf s then some (s.drop pat.length) else none

/-- Case-insensitive literal prefix (pattern given lowercase); returns the rest. -/
def stripPrefixCI (pat s : List Char) : Option (List Char) :=
  if (s.take pat.length).map jsToLower == pat then some (s.drop pat.length) else none

/-- `["']([^"']+)["']`: an opening quote, a nonempty run free of both quote
characters, a closing quote (either kind, as in the source class). -/
def scanQuoted (s : List Char) : Option (List Char × List Char) :=
  match s with
  | [] => none
  | q :: rest =>
    if isQuote q then
      let cap := rest.takeWhile (fun c => !isQuote c)
      match rest.drop cap.length with
      | q2 :: rest3 => if cap.length > 0 && isQuote q2 then some (cap, rest3) else none
      | [] => none
    else none

/-- Source `extractAttribute` (lines 3750-3754): first match of
`attr=["']([^"']+)["']` with the `i` flag. -/
def extractAttribute (element attr : String) : Option String :=
  scanFirst (fun s => do
    let rest ← stripPrefixCI ((lowerStr attr).data ++ ['=']) s
    let (cap, _) ← scanQuoted rest
    pure (String.mk cap)) element.data

/-- First match of the case-sensitive `/full-path=["']([^"']+)["']/` of the
`extractPackagePathFast` regex fallback (line 3599). -/
def matchFullPath (containerXml : String) : Option String :=
  scanFirst (fun s => do
    let rest ← stripPrefixCS "full-path=".data s
    let (cap, _) ← scanQuoted rest
    pure (String.mk cap)) containerXml.data

/-- First match of `/version=["']([^"']+)["']/` (line 3708). -/
def matchVersionAttr (xml : String) : Option String :=
  scanFirst (fun s => do
    let rest ← stripPrefixCS "version=".data s
    let (cap, _) ← scanQuoted rest
    pure (String.mk cap)) xml.data

/-- `<tag[^>]*>([^<]*)</tag>`, case-insensitive when `ci`; the raw capture. -/
def extractTagText (ci : Bool) (xml tag : String) : Option String :=
  let tl := if ci then (lowerStr tag).data else tag.data
  let strip := fun s => if ci then stripPrefixCI ('<' :: tl) s else stripPrefixCS ('<' :: tl) s
  scanFirst (fun s => do
    let rest ← strip s
    let body := rest.takeWhile (fun c => c != '>')
    match rest.drop body.length with
    | [] => none
    | _ :: rest2 =>
      let cap := rest2.takeWhile (fun c => c != '<')
      let rest3 := rest2.drop cap.length
      let closePat := '<' :: '/' :: tl ++ ['>']
      let _ ← if ci then stripPrefixCI closePat rest3 else stripPrefixCS closePat rest3
      pure (String.mk cap)) xml.data

/-- Source `extractXmlValue` (lines 3744-3748): trimmed first capture of
`<tag[^>]*>([^<]*)</tag>` with the `i` flag, as `undefined` when absent. -/
def extractXmlValue (xml tag : String) : Option String :=
  (extractTagText true xml tag).map jsTrim

/-- Split at the first occurrence of a literal: (before, after-the-needle). -/
def splitAtSub (needle : List Char) : List Char → Option (List Char × List Char)
  | [] => if needle.isEmpty then some ([], []) else none
  | c :: cs =>
    if needle.isPrefixOf (c :: cs) then some ([], (c :: cs).drop needle.length)
    else
      match splitAtSub needle cs with
      | some (pre, post) => some (c :: pre, post)
      | none => none

theorem splitAtSub_length_le (needle : List Char) :
    ∀ l pre post, splitAtSub needle l = some (pre, post) → post.length ≤ l.length := by
  intro l
  induction l with
  | nil =>
    intro pre post h
    simp only [splitAtSub] at h
    split at h
    · simp_all
    · simp_all
  | cons c cs ih =>
    intro pre post h
    simp only [splitAtSub] at h
    split at h
    · simp only [Option.some.injEq, Prod.mk.injEq] at h
      obtain ⟨-, h2⟩ := h
      subst h2
      simp only [List.length_drop]
      omega
    · revert h
      cases hrec : splitAtSub needle cs with
      | none => intro h; cases h
      | some pp =>
        intro h
        simp only [Option.some.injEq, Prod.mk.injEq] at h
        obtain ⟨-, h2⟩ := h
        subst h2
        exact Nat.le_succ_of_le (ih pp.1 pp.2 (by simpa using hrec))

/-- First capture of `<name[^>]*>(.*?)</name>` with the `s` flag
(case-sensitive), used for the `<manifest>`/`<spine>` sections (lines
3711, 3727). -/
def matchTagSection (xml name : String) : Option String :=
  scanFirst (fun s => do
    let rest ← stripPrefixCS ('<' :: name.data) s
    let body := rest.takeWhile (fun c => c != '>')
    match rest.drop body.length with
    | [] => none
    | _ :: rest2 =>
      let (cap, _) ← splitAtSub ('<' :: '/' :: name.data ++ ['>']) rest2
      pure (String.mk cap)) xml.data

/-- All matches of the global `/<name[^>]*>/g` (lines 3714, 3730), as the
matched tag texts, resuming after each match as the JavaScript engine does.
Recursion is driven by a fuel counter; each step consumes at least one input
character, so the `l.length` fuel the wrapper below supplies never runs out. -/
def collectTagOpensGo (name : List Char) : Nat → List Char → List (List Char)
  | 0, _ => []
  | _ + 1, [] => []
  | fuel + 1, c :: cs =>
    if ('<' :: name).isPrefixOf (c :: cs) then
      let afterName := cs.drop name.length
      let body := afterName.takeWhile (fun x => x != '>')
      match afterName.drop body.length with
      | _ :: _ =>
        ('<' :: (name ++ body ++ ['>'])) ::
          collectTagOpensGo name fuel ((afterName.drop body.length).drop 1)
      | [] => []
    else collectTagOpensGo name fuel cs

/-- The global `/<name[^>]*>/g` match list. -/
def collectTagOpens (name l : List Char) : List (List Char) :=
  collectTagOpensGo name l.length l

/-- All matches of the global lazy-block `/<name[^>]*>.*?<\/name>/gs` (lines
3823, 3897), as the full matched blocks; fuelled like `collectTagOpensGo`. -/
def collectLazyBlocksGo (name : List Char) : Nat → List Char → List (List Char)
  | 0, _ => []
  | _ + 1, [] => []
  | fuel + 1, c :: cs =>
    if ('<' :: name).isPrefixOf (c :: cs) then
      let afterName := cs.drop name.length
      let body := afterName.takeWhile (fun x => x != '>')
      match afterName.drop body.length with
      | _ :: rest2 =>
        match splitAtSub ('<' :: '/' :: name ++ ['>']) rest2 with
        | some (mid, rest3) =>
          ('<' :: (name ++ body ++ ['>'] ++ mid ++ '<' :: '/' :: name ++ ['>'])) ::
            collectLazyBlocksGo name fuel rest3
        | none => []
      | [] => []
    else collectLazyBlocksGo name fuel cs

/-- The global lazy-block match list. -/
def collectLazyBlocks (name l : List Char) : List (List Char) :=
  collectLazyBlocksGo name l.length l

/-- Within a tag body: skip `[^>]*`, then `attr=` followed by a quoted
nonempty capture, backtracking over later occurrences as the engine would. -/
def findAttrQuoted (attr : List Char) : List Char → Option (List Char × List Char)
  | [] => none
  | c :: cs =>
    match (do
      let rest ← stripPrefixCS attr (c :: cs)
      scanQuoted rest : Option (List Char × List Char)) with
    | some r => some r
    | none => if c == '>' then none else findAttrQuoted attr cs

/-- First match of `/<a[^>]*href=["']([^"']+)["'][^>]*>([^<]*)<\/a>/` in an
`<li>` block (line 3827): the pair (href capture, link text capture). -/
def matchAnchorTag (item : String) : Option (String × String) :=
  scanFirst (fun s => do
    let rest ← stripPrefixCS "<a".data s
    let (cap, afterQuote) ← findAttrQuoted "href=".data rest
    let body2 := afterQuote.takeWhile (fun x => x != '>')
    match afterQuote.drop body2.length with
    | [] => none
    | _ :: rest2 =>
      let text := rest2.takeWhile (fun x => x != '<')
      let _ ← stripPrefixCS "</a>".data (rest2.drop text.length)
      pure (String.mk cap, String.mk text)) item.data

/-- First match of `/<content[^>]*src=["']([^"']+)["']/` (line 3907). -/
def matchContentSrc (s : String) : Option String :=
  scanFirst (fun l => do
    let rest ← stripPrefixCS "<content".data l
    let (cap, _) ← findAttrQuoted "src=".data rest
    pure (String.mk cap)) s.data

/-- Index of the last slash of a path, as `lastIndexOf('/')`. -/
def lastSlashIdx (l : List Char) : Option Nat :=
  (l.reverse.findIdx? (fun c => c == '/')).map (fun j => l.length - 1 - j)

/-- Source `resolveHref` (lines 3925-3931); `substring(0, -1)` on a slash-free
base clamps to the empty string, exactly as `lastIndexOf` returning -1 does. -/
def resolveHref (basePath href : String) : String :=
  let baseDir := String.mk (basePath.data.take ((lastSlashIdx basePath.data).getD 0))
  if ("/".data).isPrefixOf href.data then String.mk (href.data.drop 1)
  else if baseDir ≠ "" then baseDir ++ "/" ++ href
  else href

/-! Size lemmas supporting the termination of the recursive walks over
dynamic XML trees. -/

theorem jsField_truthy_sizeOf (v : JsVal) (k : String)
    (h : jsTruthy (jsField v k) = true) : 3 + sizeOf (jsField v k) ≤ sizeOf v := by
  cases v with
  | undef => simp [jsField, jsTruthy] at h
  | str s => simp [jsField, jsTruthy] at h
  | arr xs => simp [jsField, jsTruthy] at h
  | obj fs =>
    revert h
    simp only [jsField]
    cases hf : fs.find? (fun p => p.1 == k) with
    | none => intro h; simp [jsTruthy] at h
    | some pr =>
      intro h
      have hmem := List.mem_of_find?_eq_some hf
      have h1 : sizeOf pr < sizeOf fs := List.sizeOf_lt_of_mem hmem
      obtain ⟨a, b⟩ := pr
      simp only [Prod.mk.sizeOf_spec] at h1
      simp only [Option.map_some', Option.getD_some, JsVal.obj.sizeOf_spec]
      omega

theorem jsval_sizeOf_pos (v : JsVal) : 1 ≤ sizeOf v := by
  cases v <;> simp

/-- Strict equality of a dynamic value against a string literal (`=== 'toc'`). -/
def jsStrEq (v : JsVal) (s : String) : Bool :=
  match v with
  | .str t => t == s
  | _ => false

/-- JavaScript `parseInt` on the modelled value shapes (strings parse an
optional sign and leading digits; everything else is `NaN`, encoded `none`). -/
def jsParseInt (v : JsVal) : Option Int :=
  match v with
  | .str s =>
    let t := s.data.dropWhile isJsSpace
    let signed : Int × List Char :=
      match t with
      | '-' :: r => (-1, r)
      | '+' :: r => (1, r)
      | _ => (1, t)
    let ds := signed.2.takeWhile (fun c => '0' ≤ c && c ≤ '9')
    if ds.isEmpty then none
    else some (signed.1 * (ds.foldl (fun acc c => acc * 10 + (c.toNat - 48 : Int)) 0))
  | _ => none

/-! The parser ops record: the third-party libraries the source imports at
module level (fast-xml-parser, html-to-text, node-html-parser) and the `btoa`
builtin, supplied as explicit parameters.  `xmlParse` is `none` exactly when
the dynamic import of fast-xml-parser failed (the source then routes every
`...Fast` function through its concrete regex fallback). -/

/-- External collaborators of the parser.  `sliceSection`,
`extractTextFromHtml`, `extractFormattedHtml` and `extractChapterTitleEnhanced`
are the four HTML-processing helpers of the source (lines 2961-3034,
2732-2784, 2787-2805, 3187-3240); each wraps an optional third-party library
behind an internal try/catch and therefore denotes a total function, which is
how they enter the model.  Their internals are irrelevant to every claim
settled here; all theorems below hold for every choice of these functions. -/
structure EpubOps where
  xmlParse : Option (String → Except String JsVal)
  sliceSection : String → String → List String → String
  extractTextFromHtml : String → String
  extractFormattedHtml : String → String
  extractChapterTitleEnhanced : String → String → String → String
  btoa : String → Except String String

/-- Ambient effects read during a parse: `new Date().toISOString()` (the
`parsedAt` stamp, line 3557) and the successive `Math.random()` draws used for
generated NCX entry ids (line 3860). -/
structure ParseEnv where
  now : String
  rand : Nat → String

/-- The extracted archive, path to decoded file content (the output of
`extractZipFiles`, whose fflate call is third-party; file bytes are modelled
as strings and `TextDecoder` as the identity). -/
def FileMap : Type := String → Option String

/-- Source `extractPackagePathFast` (lines 3582-3605).  Every failure of the
fast path (library missing, parse error, dynamic type error, missing
`rootfiles`) drops to the regex fallback; a fallback miss is the thrown
`Package path not found` error.  A defined but missing `full-path` attribute
returns the stringified `undefined`, see `jsKeyString`. -/
def extractPackagePathFast (ops : EpubOps) (containerXml : String) :
    Except String String :=
  let fallback : Except String String :=
    match matchFullPath containerXml with
    | some p => .ok p
    | none => .error "Package path not found in container.xml"
  match ops.xmlParse with
  | none => fallback
  | some xp =>
    match xp containerXml with
    | .error _ => fallback
    | .ok parsed =>
      match jsGet parsed "container" with
      | .error _ => fallback
      | .ok container =>
        let rootfiles := jsOptGet (jsOptGet container "rootfiles") "rootfile"
        match rootfiles with
        | .arr xs =>
          match jsGet ((xs.get? 0).getD .undef) "@_full-path" with
          | .error _ => fallback
          | .ok v => .ok (jsKeyString v)
        | rf =>
          if jsTruthy rf then .ok (jsKeyString (jsField rf "@_full-path"))
          else fallback

/-- Source `extractMetadataValue` (lines 3630-3634). -/
def extractMetadataValue (field : JsVal) : JsVal :=
  match field with
  | .str _ => field
  | .arr xs =>
    let f0 := (xs.get? 0).getD .undef
    jsOr (jsOptGet f0 "#text") f0
  | f => jsOr (jsOptGet f "#text") (jsOr f .undef)

/-- Manifest extraction loop of `parsePackageDocumentFast` (lines 3653-3666). -/
def manifestFromItems (items : List JsVal) : Except String (List ManifestItem) :=
  items.foldlM
    (fun acc item => do
      let idv ← jsGet item "@_id"
      let hrefv ← jsGet item "@_href"
      let mtv ← jsGet item "@_media-type"
      if jsTruthy idv && jsTruthy hrefv && jsTruthy mtv then
        let props ← jsSplitSpace (jsField item "@_properties")
        pure (acc ++ [⟨asStr idv, asStr hrefv, asStr mtv, props⟩])
      else pure acc)
    []

/-- Spine extraction loop of `parsePackageDocumentFast` (lines 3669-3680); the
`linear` attribute is carried verbatim when present. -/
def spineFromItems (items : List JsVal) : Except String (List RawSpineItem) :=
  items.foldlM
    (fun acc itemref => do
      let idv ← jsGet itemref "@_idref"
      if jsTruthy idv then
        let lin : Option String :=
          match jsField itemref "@_linear" with
          | .str s => some s
          | _ => none
        pure (acc ++ [⟨asStr idv, lin⟩])
      else pure acc)
    []

/-- `Option String` as the JavaScript string-or-undefined results of the regex
helpers. -/
def optToJs : Option String → JsVal
  | none => .undef
  | some s => .str s

/-- Source `parsePackageDocumentRegex` (lines 3694-3742). -/
def parsePackageDocumentRegex (packageXml : String) : PackageData :=
  let rx2 := fun (t1 t2 : String) =>
    jsOr (optToJs (extractXmlValue packageXml t1)) (optToJs (extractXmlValue packageXml t2))
  let version := (matchVersionAttr packageXml).getD "3.0"
  let manifest :=
    match matchTagSection packageXml "manifest" with
    | none => []
    | some content =>
      (collectTagOpens "item".data content.data).foldl
        (fun acc itemMatch =>
          let im := String.mk itemMatch
          match extractAttribute im "id", extractAttribute im "href",
              extractAttribute im "media-type" with
          | some id, some href, some mt =>
            acc ++ [⟨id, href, mt, (extractAttribute im "properties").map (fun p => splitOnC ' ' p)⟩]
          | _, _, _ => acc)
        []
  let spine :=
    match matchTagSection packageXml "spine" with
    | none => []
    | some content =>
      (collectTagOpens "itemref".data content.data).foldl
        (fun acc itemrefMatch =>
          let im := String.mk itemrefMatch
          match extractAttribute im "idref" with
          | some idref => acc ++ [⟨idref, extractAttribute im "linear"⟩]
          | none => acc)
        []
  { metadata :=
      { title := rx2 "dc:title" "title", creator := rx2 "dc:creator" "creator",
        language := rx2 "dc:language" "language",
        identifier := rx2 "dc:identifier" "identifier",
        publisher := rx2 "dc:publisher" "publisher", date := rx2 "dc:date" "date",
        description := rx2 "dc:description" "description",
        subject := rx2 "dc:subject" "subject", rights := rx2 "dc:rights" "rights",
        source := rx2 "dc:source" "source" },
    manifest := manifest, spine := spine, version := version }

/-- The fast-xml-parser branch of `parsePackageDocumentFast` (lines 3620-3684);
any dynamic failure is reported for the caller to fall back. -/
def parsePackageDocumentFastE (xp : String → Except String JsVal)
    (packageXml : String) : Except String PackageData := do
  let parsed ← xp packageXml
  let pkg ← jsGet parsed "package"
  let metadataRaw ← jsGet pkg "metadata"
  let metadata := jsOr metadataRaw (JsVal.obj [])
  let md := fun (k1 k2 : String) =>
    extractMetadataValue (jsOr (jsField metadata k1) (jsField metadata k2))
  let version := asStr (jsOr (jsField pkg "@_version") (JsVal.str "3.0"))
  let manifestItemsv := jsOr (jsOptGet (jsField pkg "manifest") "item") (JsVal.arr [])
  let itemsArray :=
    match manifestItemsv with
    | .arr xs => xs
    | v => [v]
  let manifest ← manifestFromItems itemsArray
  let spineItemsv := jsOr (jsOptGet (jsField pkg "spine") "itemref") (JsVal.arr [])
  let spineArray :=
    match spineItemsv with
    | .arr xs => xs
    | v => [v]
  let spine ← spineFromItems spineArray
  pure
    { metadata :=
        { title := md "dc:title" "title", creator := md "dc:creator" "creator",
          language := md "dc:language" "language",
          identifier := md "dc:identifier" "identifier",
          publisher := md "dc:publisher" "publisher", date := md "dc:date" "date",
          description := md "dc:description" "description",
          subject := md "dc:subject" "subject", rights := md "dc:rights" "rights",
          source := md "dc:source" "source" },
      manifest := manifest, spine := spine, version := version }

/-- Source `parsePackageDocumentFast` (lines 3619-3691): fast branch with the
regex fallback on any failure. -/
def parsePackageDocumentFast (ops : EpubOps) (packageXml : String) : PackageData :=
  match ops.xmlParse with
  | none => parsePackageDocumentRegex packageXml
  | some xp =>
    match parsePackageDocumentFastE xp packageXml with
    | .ok pd => pd
    | .error _ => parsePackageDocumentRegex packageXml

mutual
/-- Source `extractTocFromList` (lines 3783-3810), over dynamic list shapes. -/
def extractTocFromList (listElement : JsVal) (level : Nat) :
    Except String TocForest :=
  match hliv : jsField listElement "li" with
  | .arr xs => tocItemsLoop xs level 0
  | v => if h : jsTruthy v = true then tocItemsLoop [v] level 0 else .ok .nil
termination_by 2 * sizeOf listElement + 1
decreasing_by
  · have h1 : jsTruthy (jsField listElement "li") = true := by
      rw [hliv]; rfl
    have h2 := jsField_truthy_sizeOf listElement "li" h1
    rw [hliv] at h2
    simp only [JsVal.arr.sizeOf_spec] at h2
    omega
  · have h2 := jsField_truthy_sizeOf listElement "li" (by rw [hliv]; exact h)
    rw [hliv] at h2
    simp only [List.cons.sizeOf_spec, List.nil.sizeOf_spec]
    omega

/-- The indexed `for` loop of `extractTocFromList`. -/
def tocItemsLoop (items : List JsVal) (level : Nat) (i : Nat) :
    Except String TocForest :=
  match items with
  | [] => .ok .nil
  | item :: rest => do
    let link ← jsGet item "a"
    let entries ←
      if jsTruthy link && jsTruthy (jsField link "@_href") && jsTruthy (jsField link "#text") then do
        let children ←
          if h : jsTruthy (jsField item "ol") = true then
            extractTocFromList (jsField item "ol") (level + 1)
          else pure TocForest.nil
        pure (TocForest.cons
          (TocEntry.mk ("toc-" ++ toString level ++ "-" ++ toString i)
            (jsTrim (asStr (jsField link "#text")))
            (asStr (jsField link "@_href"))
            (level + 1) (i : Int) children)
          TocForest.nil)
      else pure TocForest.nil
    let restEntries ← tocItemsLoop rest level (i + 1)
    pure (entries.append restEntries)
termination_by 2 * sizeOf items
decreasing_by
  · simp only [List.cons.sizeOf_spec]
    omega
  · have h2 := jsField_truthy_sizeOf item "ol" h
    simp only [List.cons.sizeOf_spec]
    omega
end

/-- The nav-element scan of `parseNavigationDocumentFast` (lines 3767-3774). -/
def navLoop (xs : List JsVal) : Except String TocForest :=
  match xs with
  | [] => .ok .nil
  | nav :: rest => do
    let t1 ← jsGet nav "@_epub:type"
    if jsStrEq t1 "toc" || jsStrEq (jsField nav "@_type") "toc" then
      let ol := jsField nav "ol"
      if jsTruthy ol then extractTocFromList ol 0 else navLoop rest
    else navLoop rest

/-- The fast-xml-parser branch of `parseNavigationDocumentFast` (lines
3756-3776). -/
def parseNavFastE (xp : String → Except String JsVal) (navContent : String) :
    Except String TocForest := do
  let parsed ← xp navContent
  let htmlv ← jsGet parsed "html"
  let navv := jsOptGet (jsOptGet htmlv "body") "nav"
  let navElements :=
    match navv with
    | .arr xs => xs
    | v => if jsTruthy v then [v] else []
  navLoop navElements

/-- The `<nav ... epub:type="toc" ...>` section matcher of the regex fallback
(line 3816): `/<nav[^>]*epub:type=["']toc["'][^>]*>(.*?)<\/nav>/s`. -/
def findTypeToc : List Char → Option (List Char)
  | [] => none
  | c :: cs =>
    match (do
      let r1 ← stripPrefixCS "epub:type=".data (c :: cs)
      match r1 with
      | q :: r2 =>
        if isQuote q then do
          let r3 ← stripPrefixCS "toc".data r2
          match r3 with
          | q2 :: r4 => if isQuote q2 then some r4 else none
          | [] => none
        else none
      | [] => none : Option (List Char)) with
    | some r => some r
    | none => if c == '>' then none else findTypeToc cs

/-- Capture of the toc nav section regex (line 3816). -/
def tocNavSection (navContent : String) : Option String :=
  scanFirst (fun s => do
    let rest ← stripPrefixCS "<nav".data s
    let afterType ← findTypeToc rest
    let body2 := afterType.takeWhile (fun x => x != '>')
    match afterType.drop body2.length with
    | [] => none
    | _ :: rest2 => do
      let (cap, _) ← splitAtSub "</nav>".data rest2
      pure (String.mk cap)) navContent.data

/-- Source `parseNavigationDocumentRegex` (lines 3813-3841). -/
def parseNavigationDocumentRegex (navContent : String) : TocForest :=
  match tocNavSection navContent with
  | none => .nil
  | some tocContent =>
    match matchTagSection tocContent "ol" with
    | none => .nil
    | some listContent =>
      ((collectLazyBlocks "li".data listContent.data).enum).foldl
        (fun acc p =>
          match matchAnchorTag (String.mk p.2) with
          | some (href, text) =>
            acc.push (TocEntry.mk ("toc-" ++ toString p.1) (jsTrim text) href 1
              (p.1 : Int) .nil)
          | none => acc)
        .nil

/-- Source `parseNavigationDocumentFast` (lines 3756-3781): fast branch with
regex fallback on failure. -/
def parseNavigationDocumentFast (ops : EpubOps) (navContent : String) : TocForest :=
  match ops.xmlParse with
  | none => parseNavigationDocumentRegex navContent
  | some xp =>
    match parseNavFastE xp navContent with
    | .ok t => t
    | .error _ => parseNavigationDocumentRegex navContent

mutual
/-- Source `processNavPoint` (lines 3859-3885).  The generated-id branch reads
the next `Math.random()` draw (`env.rand` through the threaded counter), which
happens exactly when the `@_id` attribute is falsy. -/
def processNavPoint (rand : Nat → String) (navPoint : JsVal) (level : Nat)
    (ctr : Nat) : Except String (TocEntry × Nat) := do
  let idv ← jsGet navPoint "@_id"
  let idc : String × Nat :=
    if jsTruthy idv then (asStr idv, ctr)
    else ("ncx-" ++ toString level ++ "-" ++ rand ctr, ctr + 1)
  let playOrder := (jsParseInt (jsField navPoint "@_playOrder")).getD 0
  let navLabel := jsField navPoint "navLabel"
  let titlev := jsOr (jsOptGet (jsOptGet navLabel "text") "#text")
    (jsOr (jsOptGet navLabel "text") (jsOr (jsField navPoint "@_id") (.str "Untitled")))
  let hrefv := jsOr (jsOptGet (jsField navPoint "content") "@_src") (.str "")
  let mk := fun (children : TocForest) (c2 : Nat) =>
    (TocEntry.mk idc.1 (jsTrim (asStr titlev)) (asStr hrefv) level playOrder children, c2)
  if h : jsTruthy (jsField navPoint "navPoint") = true then
    match hcl : jsField navPoint "navPoint" with
    | .arr xs => do
      let r ← navPointsLoop rand xs (level + 1) idc.2
      pure (mk r.1 r.2)
    | v => do
      let r ← navPointsLoop rand [v] (level + 1) idc.2
      pure (mk r.1 r.2)
  else
    pure (mk .nil idc.2)
termination_by 2 * sizeOf navPoint + 1
decreasing_by
  · have h2 := jsField_truthy_sizeOf navPoint "navPoint" h
    rw [hcl] at h2
    simp only [JsVal.arr.sizeOf_spec] at h2
    omega
  · have h2 := jsField_truthy_sizeOf navPoint "navPoint" h
    rw [hcl] at h2
    simp only [List.cons.sizeOf_spec, List.nil.sizeOf_spec]
    omega

/-- Mapping `processNavPoint` over sibling navPoints, threading the PRNG
counter left to right. -/
def navPointsLoop (rand : Nat → String) (xs : List JsVal) (level : Nat)
    (ctr : Nat) : Except String (TocForest × Nat) :=
  match xs with
  | [] => .ok (.nil, ctr)
  | x :: rest => do
    let r1 ← processNavPoint rand x level ctr
    let r2 ← navPointsLoop rand rest level r1.2
    pure (TocForest.cons r1.1 r2.1, r2.2)
termination_by 2 * sizeOf xs
decreasing_by
  · simp only [List.cons.sizeOf_spec]
    omega
  · simp only [List.cons.sizeOf_spec]
    omega
end

/-- The fast-xml-parser branch of `parseNCXDocument` (lines 3847-3891). -/
def parseNCXFastE (xp : String → Except String JsVal) (rand : Nat → String)
    (ncxContent : String) : Except String TocForest := do
  let parsed ← xp ncxContent
  let ncxv ← jsGet parsed "ncx"
  let navMap := jsOptGet ncxv "navMap"
  let npv := jsOptGet navMap "navPoint"
  if jsTruthy npv then
    let navPoints :=
      match npv with
      | .arr xs => xs
      | v => [v]
    let r ← navPointsLoop rand navPoints 1 0
    pure r.1
  else pure .nil

/-- The regex fallback of `parseNCXDocument` (lines 3896-3921). -/
def parseNCXRegex (ncxContent : String) : TocForest :=
  ((collectLazyBlocks "navPoint".data ncxContent.data).enum).foldl
    (fun acc p =>
      let np := String.mk p.2
      let title :=
        match extractTagText false np "text" with
        | some t => jsTrim t
        | none => "Chapter " ++ toString (p.1 + 1)
      let href := (matchContentSrc np).getD ""
      if href ≠ "" then
        acc.push (TocEntry.mk ("ncx-" ++ toString p.1) title href 1 (p.1 : Int) .nil)
      else acc)
    .nil

/-- Source `parseNCXDocument` (lines 3844-3923): fast branch, regex fallback on
any failure (the partial `toc` is still empty when the catch runs, since the
single `toc.push` of the fast branch is its last step). -/
def parseNCXDocument (ops : EpubOps) (rand : Nat → String) (ncxContent : String) :
    TocForest :=
  match ops.xmlParse with
  | none => parseNCXRegex ncxContent
  | some xp =>
    match parseNCXFastE xp rand ncxContent with
    | .ok t => t
    | .error _ => parseNCXRegex ncxContent

/-! Chapter assembly (the inline body of `parseEpubContent`, lines 3348-3520). -/

/-- An entry of the `allAnchors` list (lines 3358-3377). -/
structure AnchorInfo where
  anchor : String
  title : String
  href : String
  level : Nat
deriving DecidableEq, Repr

mutual
/-- Source `collectAnchors` (lines 3359-3377): depth-first, each entry before
its children. -/
def collectAnchors : TocForest → List AnchorInfo
  | .nil => []
  | .cons e rest => collectAnchorsEntry e ++ collectAnchors rest

/-- The per-entry body of `collectAnchors`. -/
def collectAnchorsEntry : TocEntry → List AnchorInfo
  | .mk _ title href level _ children =>
    (if containsSub href "#" then
      let anchor := ((splitOnC '#' href).get? 1).getD ""
      if anchor ≠ "" then [{ anchor := anchor, title := title, href := href, level := level }]
      else []
    else []) ++ collectAnchors children
end

/-- Append to the group of a key, JS-`Map` style (first-occurrence key order,
values appended in arrival order). -/
def addToGroup (groups : List (String × List AnchorInfo)) (file : String)
    (a : AnchorInfo) : List (String × List AnchorInfo) :=
  match groups with
  | [] => [(file, [a])]
  | (f, as_) :: rest =>
    if f == file then (f, as_ ++ [a]) :: rest
    else (f, as_) :: addToGroup rest file a

/-- Source `anchorsByFile` construction (lines 3380-3387). -/
def groupAnchorsByFile (l : List AnchorInfo) : List (String × List AnchorInfo) :=
  l.foldl (fun gs a => addToGroup gs (((splitOnC '#' a.href).head?).getD "") a) []

/-- JS-`Map.set` on an association list: overwrite in place or append. -/
def mapSet (m : List (String × TocEntry)) (k : String) (v : TocEntry) :
    List (String × TocEntry) :=
  match m with
  | [] => [(k, v)]
  | (k0, v0) :: rest =>
    if k0 == k then (k0, v) :: rest else (k0, v0) :: mapSet rest k v

mutual
/-- Source `buildTocMapping` (lines 3330-3340): each entry keyed by its href
with the fragment stripped, set before descending into its children
(last write wins). -/
def buildTocMapping : TocForest → List (String × TocEntry) → List (String × TocEntry)
  | .nil, m => m
  | .cons e rest, m => buildTocMapping rest (buildTocMappingEntry e m)

/-- The per-entry body of `buildTocMapping`. -/
def buildTocMappingEntry : TocEntry → List (String × TocEntry) → List (String × TocEntry)
  | .mk id title href level po children, m =>
    let cleanHref := ((splitOnC '#' href).head?).getD ""
    buildTocMapping children (mapSet m cleanHref (.mk id title href level po children))
end

/-- `tocMapping.get`. -/
def mapGet (m : List (String × TocEntry)) (k : String) : Option TocEntry :=
  (m.find? (fun p => p.1 == k)).map Prod.snd

/-- Mutable loop state of the chapter-assembly section: the `chapters`,
`totalWordCount`, `chapterNumber` and `warnings` variables (lines 3259,
3349-3351). -/
structure ChapterState where
  chapters : List Chapter
  totalWordCount : Nat
  chapterNumber : Nat
  warnings : List String
deriving Repr

/-- The JavaScript property access `manifestItem?.linear` performed inside
`isFrontMatterPage` (line 3048) on the argument its two call sites pass
(lines 3415 and 3480).  Both call sites pass a `ManifestItem` — found in the
manifest by href resp. by idref — and the `ManifestItem` interface (lines
3607-3612) carries no `linear` field; the spine `linear` attribute lives only
on `RawSpineItem`, which is never handed to the classifier.  The access
therefore always evaluates to `undefined`. -/
def manifestItemLinear (_item : ManifestItem) : Option String := none

/-- The per-anchor loop of the anchor-driven chapter path (lines 3403-3446);
`nextAnchors` is `anchors.slice(j + 1).map(a => a.anchor)`. -/
def processFileAnchors (ops : EpubOps) (fullHtmlContent : String)
    (manifestItem : ManifestItem) : List AnchorInfo → ChapterState → ChapterState
  | [], st => st
  | a :: rest, st =>
    let nextAnchors := rest.map (fun x => x.anchor)
    let sectionHtml := ops.sliceSection fullHtmlContent a.anchor nextAnchors
    let textContent := ops.extractTextFromHtml sectionHtml
    let formattedContent := ops.extractFormattedHtml sectionHtml
    let wordCount := countWords textContent
    if isFrontMatterPage sectionHtml textContent wordCount (manifestItemLinear manifestItem)
        || isFrontMatterTitle a.title then
      processFileAnchors ops fullHtmlContent manifestItem rest st
    else if wordCount < 50 then
      processFileAnchors ops fullHtmlContent manifestItem rest st
    else
      processFileAnchors ops fullHtmlContent manifestItem rest
        { st with
          totalWordCount := st.totalWordCount + wordCount,
          chapters := st.chapters ++
            [{ id := manifestItem.id ++ "_" ++ a.anchor, title := a.title, href := a.href,
               htmlContent := formattedContent, textContent := textContent,
               wordCount := wordCount, order := st.chapterNumber - 1, level := a.level }],
          chapterNumber := st.chapterNumber + 1 }

/-- The per-file loop of the anchor-driven chapter path (lines 3390-3450):
unresolved manifest hrefs and missing files are skipped. -/
def processAnchorGroups (ops : EpubOps) (files : FileMap) (packagePath : String)
    (manifest : List ManifestItem) :
    List (String × List AnchorInfo) → ChapterState → ChapterState
  | [], st => st
  | (fileName, anchors) :: rest, st =>
    let st2 :=
      match manifest.find? (fun item => item.href == fileName) with
      | none => st
      | some manifestItem =>
        match files (resolveHref packagePath fileName) with
        | none => st
        | some fileData => processFileAnchors ops fileData manifestItem anchors st
    processAnchorGroups ops files packagePath manifest rest st2

/-- The spine-driven fallback loop (lines 3457-3519). -/
def processSpineChapters (ops : EpubOps) (files : FileMap) (packagePath : String)
    (manifest : List ManifestItem) (tocMapping : List (String × TocEntry)) :
    List RawSpineItem → ChapterState → ChapterState
  | [], st => st
  | spineItem :: rest, st =>
    let st2 :=
      match manifest.find? (fun item => item.id == spineItem.idref) with
      | none =>
        { st with warnings := st.warnings ++
            ["Spine item " ++ spineItem.idref ++ " not found in manifest"] }
      | some manifestItem =>
        let chapterPath := resolveHref packagePath manifestItem.href
        match files chapterPath with
        | none =>
          { st with warnings := st.warnings ++ ["Chapter file not found: " ++ chapterPath] }
        | some htmlContent =>
          let textContent := ops.extractTextFromHtml htmlContent
          let formattedContent := ops.extractFormattedHtml htmlContent
          let wordCount := countWords textContent
          if isFrontMatterPage htmlContent textContent wordCount
              (manifestItemLinear manifestItem) then st
          else
            let cleanHref := ((splitOnC '#' manifestItem.href).head?).getD ""
            let tocEntry := mapGet tocMapping cleanHref
            let title :=
              match tocEntry with
              | some e =>
                if e.title ≠ "" && !isFrontMatterTitle e.title then e.title
                else ops.extractChapterTitleEnhanced htmlContent textContent manifestItem.id
              | none => ops.extractChapterTitleEnhanced htmlContent textContent manifestItem.id
            let level :=
              match tocEntry with
              | some e => if e.level ≠ 0 then e.level else 1
              | none => 1
            { st with
              totalWordCount := st.totalWordCount + wordCount,
              chapters := st.chapters ++
                [{ id := manifestItem.id, title := title, href := manifestItem.href,
                   htmlContent := formattedContent, textContent := textContent,
                   wordCount := wordCount, order := st.chapterNumber - 1, level := level }],
              chapterNumber := st.chapterNumber + 1 }
    processSpineChapters ops files packagePath manifest tocMapping rest st2

/-- One iteration of the resource loop of `processEpubResourcesFast` (lines
3944-3992), as a state transform in the exception monad.  The only failing
operation, the `btoa(String.fromCharCode(...imageFile))` builtin call, happens
before any state mutation of its iteration, so the catch of the source leaves
the accumulated resources of a failing iteration untouched. -/
def resourceStep (ops : EpubOps) (files : FileMap) (packagePath : String)
    (resources : EpubResources) (item : ManifestItem) : Except String EpubResources :=
  if "image/".data.isPrefixOf item.mediaType.data then
    match files (resolveHref packagePath item.href) with
    | some imageFile =>
      match ops.btoa imageFile with
      | .error e => .error e
      | .ok base64Data =>
        let imageSize := imageFile.length
        let imageResource : ImageResource :=
          { id := item.id, href := item.href, mediaType := item.mediaType,
            base64 :=
              if imageSize < 100000 then
                some ("data:" ++ item.mediaType ++ ";base64," ++ base64Data)
              else none }
        let res2 := { resources with images := resources.images ++ [imageResource] }
        if (item.properties.getD []).contains "cover-image"
            || containsSub (lowerStr item.href) "cover"
            || containsSub (lowerStr item.id) "cover" then
          .ok { res2 with coverImage := imageResource.base64 }
        else .ok res2
    | none => pure resources
  else if item.mediaType == "text/css" then
    match files (resolveHref packagePath item.href) with
    | some cssFile => pure { resources with stylesheets := resources.stylesheets ++ [cssFile] }
    | none => pure resources
  else if containsSub item.mediaType "font" || containsSub (lowerStr item.href) ".ttf"
      || containsSub (lowerStr item.href) ".otf"
      || containsSub (lowerStr item.href) ".woff" then
    pure { resources with fonts := resources.fonts ++
      [{ id := item.id, href := item.href, mediaType := item.mediaType,
         fontFamily := item.id, isObfuscated := false }] }
  else pure resources

/-- The catch wrapper of one resource-loop iteration: a failure is logged
only (line 3994) and leaves the accumulated resources unchanged. -/
def resourceStepCaught (ops : EpubOps) (files : FileMap) (packagePath : String)
    (resources : EpubResources) (item : ManifestItem) : EpubResources :=
  match resourceStep ops files packagePath resources item with
  | .ok r => r
  | .error _ => resources

/-- Source `processEpubResourcesFast` (lines 3933-4005): one manifest pass; a
failing iteration is caught (logged only) and the loop continues. -/
def processEpubResourcesFast (ops : EpubOps) (files : FileMap)
    (manifest : List ManifestItem) (packagePath : String) : EpubResources :=
  manifest.foldl (resourceStepCaught ops files packagePath)
    { coverImage := none, images := [], stylesheets := [], fonts := [] }

/-- The navigation block of `parseEpubContent` (lines 3292-3327): EPUB 3 nav
document first, NCX fallback when that produced no entries.  Its surrounding
try/catch can only fire on exceptions of the library calls, all of which the
callees already absorb, so the catch (and its warning push) is unreachable in
the model. -/
def navigationStage (ops : EpubOps) (rand : Nat → String) (files : FileMap)
    (packagePath : String) (packageData : PackageData) : TocForest :=
  let navItem := packageData.manifest.find? (fun item =>
    (item.properties.getD []).contains "nav"
      || (item.mediaType == "application/xhtml+xml" && containsSub item.href "nav"))
  let toc1 :=
    match navItem with
    | some item =>
      match files (resolveHref packagePath item.href) with
      | some navFile => parseNavigationDocumentFast ops navFile
      | none => .nil
    | none => .nil
  if toc1.length == 0 then
    let ncxItem := packageData.manifest.find? (fun item =>
      item.mediaType == "application/x-dtbncx+xml" || containsSub item.href ".ncx")
    match ncxItem with
    | some item =>
      match files (resolveHref packagePath item.href) with
      | some ncxFile => parseNCXDocument ops rand ncxFile
      | none => toc1
    | none => toc1
  else toc1

/-- The chapter-assembly block (lines 3348-3520): anchor-driven when the TOC
is nonempty, spine-driven fallback when zero chapters were produced. -/
def chapterStage (ops : EpubOps) (files : FileMap) (packagePath : String)
    (packageData : PackageData) (tableOfContents : TocForest)
    (tocMapping : List (String × TocEntry)) : ChapterState :=
  let st0 : ChapterState :=
    { chapters := [], totalWordCount := 0, chapterNumber := 1, warnings := [] }
  let st1 :=
    if tableOfContents.length > 0 then
      processAnchorGroups ops files packagePath packageData.manifest
        (groupAnchorsByFile (collectAnchors tableOfContents)) st0
    else st0
  if st1.chapters.length == 0 then
    processSpineChapters ops files packagePath packageData.manifest tocMapping
      packageData.spine st1
  else st1

/-- The body of the `try` block of `parseEpubContent` (lines 3265-3573); the
`errors` accumulator of line 3259 is never appended to on any path, so the
assembled `parsing.errors` is always absent. -/
def parseEpubBody (ops : EpubOps) (files : FileMap) (env : ParseEnv) :
    Except String EpubContent :=
  match files "META-INF/container.xml" with
  | none => Except.error "Invalid EPUB: META-INF/container.xml not found"
  | some containerFile =>
  match extractPackagePathFast ops containerFile with
  | .error e => Except.error e
  | .ok packagePath =>
  match files packagePath with
  | none => Except.error ("Package document not found at: " ++ packagePath)
  | some packageFile =>
  let packageData := parsePackageDocumentFast ops packageFile
  let tableOfContents := navigationStage ops env.rand files packagePath packageData
  let tocMapping := buildTocMapping tableOfContents []
  let st := chapterStage ops files packagePath packageData tableOfContents tocMapping
  let resources := processEpubResourcesFast ops files packageData.manifest packagePath
  Except.ok
    { metadata :=
        { title := jsOr packageData.metadata.title (.str "Unknown Title"),
          author := jsOr packageData.metadata.creator (.str "Unknown Author"),
          language := jsOr packageData.metadata.language (.str "en"),
          identifier := jsOr packageData.metadata.identifier (.str ""),
          publisher := packageData.metadata.publisher,
          publishedDate := packageData.metadata.date,
          description := packageData.metadata.description,
          subject :=
            if jsTruthy packageData.metadata.subject then [packageData.metadata.subject]
            else [],
          rights := packageData.metadata.rights,
          source := packageData.metadata.source },
      struct :=
        { totalChapters := st.chapters.length,
          estimatedReadingTime := (st.totalWordCount + 199) / 200,
          wordCount := st.totalWordCount,
          tableOfContents := tableOfContents,
          spine := packageData.spine.map (fun item =>
            let found := packageData.manifest.find? (fun m => m.id == item.idref)
            let href := ((found.map (fun m => m.href)).getD "")
            let mt := ((found.map (fun m => m.mediaType)).getD "")
            { id := item.idref,
              href := href,
              mediaType := if mt ≠ "" then mt else "application/xhtml+xml",
              linear := item.linear ≠ some "no",
              properties := found.bind (fun m => m.properties) }) },
      chapters := st.chapters,
      resources := resources,
      parsing :=
        { parsedAt := env.now,
          epubVersion := if packageData.version ≠ "" then packageData.version else "3.0",
          parser := "supabase-epub-parser-v2.0-optimized",
          errors := none,
          warnings := if st.warnings.length > 0 then some st.warnings else none } }

/-- Source `parseEpubContent` (lines 3258-3579): the body above, with the
outer catch re-raising every body failure under the `EPUB parsing failed`
prefix (line 3577). -/
def parseEpubContent (ops : EpubOps) (files : FileMap) (env : ParseEnv) :
    Except String EpubContent :=
  match parseEpubBody ops files env with
  | .ok doc => .ok doc
  | .error e => .error ("EPUB parsing failed: " ++ e)

/-! Properties of the classifier. -/

/-- Rule 1 of `isFrontMatterPage` fires first: a negative verdict entails at
least 20 words. -/
theorem isFrontMatterPage_false_20 (html text : String) (wc : Nat) (lin : Option String)
    (h : isFrontMatterPage html text wc lin = false) : 20 ≤ wc := by
  by_cases hw : wc < 20
  · exfalso
    simp [isFrontMatterPage, hw] at h
  · omega

/-- Rule 2 of `isFrontMatterPage`: a spine `linear="no"` flag makes the
classifier return `true` whatever the content (rule 1 also returns `true`). -/
theorem isFrontMatterPage_linear_no (html text : String) (wc : Nat) :
    isFrontMatterPage html text wc (some "no") = true := by
  unfold isFrontMatterPage
  split
  · rfl
  · rfl

/-! The chapter-state invariant behind the order/word-count claims. -/

/-- Invariant maintained by both chapter loops: `chapterNumber` is one past the
chapter count, orders are exactly the positions, and the accumulated word
count is the sum over the accumulated chapters. -/
def stOk (st : ChapterState) : Prop :=
  st.chapterNumber = st.chapters.length + 1 ∧
  st.chapters.map (fun c => c.order) = List.range st.chapters.length ∧
  st.totalWordCount = (st.chapters.map (fun c => c.wordCount)).sum

/-- Appending one chapter with `order = chapterNumber - 1` preserves the
invariant. -/
theorem stOk_push (st : ChapterState) (h : stOk st) (c : Chapter)
    (horder : c.order = st.chapterNumber - 1)
    (w : List String) :
    stOk { chapters := st.chapters ++ [c],
           totalWordCount := st.totalWordCount + c.wordCount,
           chapterNumber := st.chapterNumber + 1,
           warnings := w } := by
  obtain ⟨h1, h2, h3⟩ := h
  refine ⟨?_, ?_, ?_⟩
  · simp [h1]
  · simp only [List.map_append, List.map_cons, List.map_nil, List.length_append,
      List.length_cons, List.length_nil]
    rw [h2, horder, h1]
    simp [List.range_succ]
  · simp [h3]

theorem processFileAnchors_stOk (ops : EpubOps) (html : String) (mi : ManifestItem)
    (anchors : List AnchorInfo) (st : ChapterState) (h : stOk st) :
    stOk (processFileAnchors ops html mi anchors st) := by
  induction anchors generalizing st with
  | nil => simpa [processFileAnchors] using h
  | cons a rest ih =>
    unfold processFileAnchors
    dsimp only
    split
    · exact ih st h
    · split
      · exact ih st h
      · exact ih _ (stOk_push st h _ rfl _)

theorem processAnchorGroups_stOk (ops : EpubOps) (files : FileMap) (pp : String)
    (manifest : List ManifestItem) (groups : List (String × List AnchorInfo))
    (st : ChapterState) (h : stOk st) :
    stOk (processAnchorGroups ops files pp manifest groups st) := by
  induction groups generalizing st with
  | nil => simpa [processAnchorGroups] using h
  | cons g rest ih =>
    unfold processAnchorGroups
    dsimp only
    apply ih
    split
    · exact h
    · split
      · exact h
      · exact processFileAnchors_stOk _ _ _ _ _ h

theorem processSpineChapters_stOk (ops : EpubOps) (files : FileMap) (pp : String)
    (manifest : List ManifestItem) (tm : List (String × TocEntry))
    (spine : List RawSpineItem) (st : ChapterState) (h : stOk st) :
    stOk (processSpineChapters ops files pp manifest tm spine st) := by
  induction spine generalizing st with
  | nil => simpa [processSpineChapters] using h
  | cons s rest ih =>
    unfold processSpineChapters
    dsimp only
    apply ih
    split
    · exact ⟨h.1, h.2.1, h.2.2⟩
    · split
      · exact ⟨h.1, h.2.1, h.2.2⟩
      · split
        · exact h
        · exact stOk_push st h _ rfl _

theorem chapterStage_stOk (ops : EpubOps) (files : FileMap) (pp : String)
    (pd : PackageData) (toc : TocForest) (tm : List (String × TocEntry)) :
    stOk (chapterStage ops files pp pd toc tm) := by
  unfold chapterStage
  have h0 : stOk ({ chapters := [], totalWordCount := 0, chapterNumber := 1, warnings := [] } : ChapterState) := ⟨rfl, rfl, rfl⟩
  dsimp only
  split
  · split
    · exact processSpineChapters_stOk _ _ _ _ _ _ _
        (processAnchorGroups_stOk _ _ _ _ _ _ h0)
    · exact processAnchorGroups_stOk _ _ _ _ _ _ h0
  · split
    · exact processSpineChapters_stOk _ _ _ _ _ _ _ h0
    · exact h0

/-! Per-chapter properties maintained by both loops: the 20-word floor and the
front-matter-title filter. -/

theorem processFileAnchors_wc (ops : EpubOps) (html : String) (mi : ManifestItem)
    (anchors : List AnchorInfo) (st : ChapterState)
    (hst : ∀ c ∈ st.chapters, 20 ≤ countWords c.textContent) :
    ∀ c ∈ (processFileAnchors ops html mi anchors st).chapters,
      20 ≤ countWords c.textContent := by
  induction anchors generalizing st with
  | nil => simpa [processFileAnchors] using hst
  | cons a rest ih =>
    unfold processFileAnchors
    dsimp only
    split
    · exact ih st hst
    · split
      · exact ih st hst
      · refine ih _ ?_
        intro c hc
        rcases List.mem_append.mp hc with hmem | hmem
        · exact hst c hmem
        · rw [List.mem_singleton.mp hmem]
          dsimp only
          omega

theorem processSpineChapters_wc (ops : EpubOps) (files : FileMap) (pp : String)
    (manifest : List ManifestItem) (tm : List (String × TocEntry))
    (spine : List RawSpineItem) (st : ChapterState)
    (hst : ∀ c ∈ st.chapters, 20 ≤ countWords c.textContent) :
    ∀ c ∈ (processSpineChapters ops files pp manifest tm spine st).chapters,
      20 ≤ countWords c.textContent := by
  induction spine generalizing st with
  | nil => simpa [processSpineChapters] using hst
  | cons s rest ih =>
    unfold processSpineChapters
    dsimp only
    apply ih
    split
    · exact hst
    · split
      · exact hst
      · split
        · exact hst
        · rename_i hfm
          intro c hc
          rcases List.mem_append.mp hc with hmem | hmem
          · exact hst c hmem
          · rw [List.mem_singleton.mp hmem]
            dsimp only
            exact isFrontMatterPage_false_20 _ _ _ _ (by simpa using hfm)

theorem processAnchorGroups_wc (ops : EpubOps) (files : FileMap) (pp : String)
    (manifest : List ManifestItem) (groups : List (String × List AnchorInfo))
    (st : ChapterState)
    (hst : ∀ c ∈ st.chapters, 20 ≤ countWords c.textContent) :
    ∀ c ∈ (processAnchorGroups ops files pp manifest groups st).chapters,
      20 ≤ countWords c.textContent := by
  induction groups generalizing st with
  | nil => simpa [processAnchorGroups] using hst
  | cons g rest ih =>
    unfold processAnchorGroups
    dsimp only
    apply ih
    split
    · exact hst
    · split
      · exact hst
      · exact processFileAnchors_wc _ _ _ _ _ hst

theorem chapterStage_wc (ops : EpubOps) (files : FileMap) (pp : String)
    (pd : PackageData) (toc : TocForest) (tm : List (String × TocEntry)) :
    ∀ c ∈ (chapterStage ops files pp pd toc tm).chapters,
      20 ≤ countWords c.textContent := by
  unfold chapterStage
  have h0 : ∀ c ∈ ([] : List Chapter), 20 ≤ countWords c.textContent := by simp
  dsimp only
  split
  · split
    · exact processSpineChapters_wc _ _ _ _ _ _ _
        (processAnchorGroups_wc _ _ _ _ _ _ h0)
    · exact processAnchorGroups_wc _ _ _ _ _ _ h0
  · split
    · exact processSpineChapters_wc _ _ _ _ _ _ _ h0
    · exact h0

/-- A chapter whose displayed title was produced by the content-title
extractor on the chapter's own section (rather than taken from a TOC entry):
some raw section HTML yields the chapter's stored plain text and formatted
content, and the title is the extractor's output on that section. -/
def chapterTitleFromExtractor (ops : EpubOps) (c : Chapter) : Prop :=
  ∃ html, ops.extractTextFromHtml html = c.textContent ∧
    ops.extractFormattedHtml html = c.htmlContent ∧
    c.title = ops.extractChapterTitleEnhanced html c.textContent c.id

/-- Every chapter of the list has a displayed title that either is not in the
front-matter vocabulary, or was delivered by the content extractor: the title
selection never takes a front-matter TOC title. -/
def tocTitleNeverUsedWhenFrontMatter (ops : EpubOps) (l : List Chapter) : Prop :=
  ∀ c ∈ l, isFrontMatterTitle c.title = false ∨ chapterTitleFromExtractor ops c

theorem processFileAnchors_titleProv (ops : EpubOps) (html : String) (mi : ManifestItem)
    (anchors : List AnchorInfo) (st : ChapterState)
    (hst : ∀ c ∈ st.chapters,
      isFrontMatterTitle c.title = false ∨ chapterTitleFromExtractor ops c) :
    ∀ c ∈ (processFileAnchors ops html mi anchors st).chapters,
      isFrontMatterTitle c.title = false ∨ chapterTitleFromExtractor ops c := by
  induction anchors generalizing st with
  | nil => simpa [processFileAnchors] using hst
  | cons a rest ih =>
    unfold processFileAnchors
    dsimp only
    split
    · exact ih st hst
    · rename_i hskip
      split
      · exact ih st hst
      · refine ih _ ?_
        intro c hc
        rcases List.mem_append.mp hc with hmem | hmem
        · exact hst c hmem
        · rw [List.mem_singleton.mp hmem]
          dsimp only
          simp only [Bool.or_eq_true, not_or] at hskip
          exact Or.inl (by simpa using hskip.2)

theorem processSpineChapters_titleProv (ops : EpubOps) (files : FileMap) (pp : String)
    (manifest : List ManifestItem) (tm : List (String × TocEntry))
    (spine : List RawSpineItem) (st : ChapterState)
    (hst : ∀ c ∈ st.chapters,
      isFrontMatterTitle c.title = false ∨ chapterTitleFromExtractor ops c) :
    ∀ c ∈ (processSpineChapters ops files pp manifest tm spine st).chapters,
      isFrontMatterTitle c.title = false ∨ chapterTitleFromExtractor ops c := by
  induction spine generalizing st with
  | nil => simpa [processSpineChapters] using hst
  | cons s rest ih =>
    unfold processSpineChapters
    dsimp only
    apply ih
    split
    · exact hst
    · split
      · exact hst
      · split
        · exact hst
        · intro c hc
          rcases List.mem_append.mp hc with hmem | hmem
          · exact hst c hmem
          · rw [List.mem_singleton.mp hmem]
            dsimp only
            split
            · rename_i e _
              split
              · rename_i hcond
                simp only [Bool.and_eq_true, Bool.not_eq_eq_eq_not, Bool.not_true] at hcond
                exact Or.inl (by simpa using hcond.2)
              · exact Or.inr ⟨_, rfl, rfl, rfl⟩
            · exact Or.inr ⟨_, rfl, rfl, rfl⟩

theorem processAnchorGroups_titleProv (ops : EpubOps) (files : FileMap) (pp : String)
    (manifest : List ManifestItem) (groups : List (String × List AnchorInfo))
    (st : ChapterState)
    (hst : ∀ c ∈ st.chapters,
      isFrontMatterTitle c.title = false ∨ chapterTitleFromExtractor ops c) :
    ∀ c ∈ (processAnchorGroups ops files pp manifest groups st).chapters,
      isFrontMatterTitle c.title = false ∨ chapterTitleFromExtractor ops c := by
  induction groups generalizing st with
  | nil => simpa [processAnchorGroups] using hst
  | cons g rest ih =>
    unfold processAnchorGroups
    dsimp only
    apply ih
    split
    · exact hst
    · split
      · exact hst
      · exact processFileAnchors_titleProv _ _ _ _ _ hst

theorem chapterStage_titleProv (ops : EpubOps) (files : FileMap) (pp : String)
    (pd : PackageData) (toc : TocForest) (tm : List (String × TocEntry)) :
    tocTitleNeverUsedWhenFrontMatter ops (chapterStage ops files pp pd toc tm).chapters := by
  unfold tocTitleNeverUsedWhenFrontMatter chapterStage
  have h0 : ∀ c ∈ ([] : List Chapter),
      isFrontMatterTitle c.title = false ∨ chapterTitleFromExtractor ops c := by simp
  dsimp only
  split
  · split
    · exact processSpineChapters_titleProv _ _ _ _ _ _ _
        (processAnchorGroups_titleProv _ _ _ _ _ _ h0)
    · exact processAnchorGroups_titleProv _ _ _ _ _ _ h0
  · split
    · exact processSpineChapters_titleProv _ _ _ _ _ _ _ h0
    · exact h0

/-- The shape of every successfully parsed document: its chapter-dependent
fields come from one `chapterStage` run, and `parsing.errors` is the constant
`undefined` of the never-touched accumulator. -/
theorem parseEpubContent_ok_shape (ops : EpubOps) (files : FileMap) (env : ParseEnv)
    (doc : EpubContent) (h : parseEpubContent ops files env = .ok doc) :
    ∃ pp pd toc,
      doc.chapters = (chapterStage ops files pp pd toc (buildTocMapping toc [])).chapters ∧
      doc.struct.totalChapters =
        (chapterStage ops files pp pd toc (buildTocMapping toc [])).chapters.length ∧
      doc.struct.wordCount =
        (chapterStage ops files pp pd toc (buildTocMapping toc [])).totalWordCount ∧
      doc.parsing.errors = none := by
  unfold parseEpubContent parseEpubBody at h
  cases hc : files "META-INF/container.xml" with
  | none => rw [hc] at h; cases h
  | some containerFile =>
    rw [hc] at h
    dsimp only at h
    cases hp : extractPackagePathFast ops containerFile with
    | error e => rw [hp] at h; cases h
    | ok pp =>
      rw [hp] at h
      dsimp only at h
      cases hf : files pp with
      | none => rw [hf] at h; cases h
      | some packageFile =>
        rw [hf] at h
        dsimp only at h
        refine ⟨pp, parsePackageDocumentFast ops packageFile,
          navigationStage ops env.rand files pp (parsePackageDocumentFast ops packageFile),
          ?_, ?_, ?_, ?_⟩ <;>
          (injection h with h2; rw [← h2])

/-! Environment dependence of a parse. -/

/-- Overwrite the `parsedAt` stamp of a document (used to compare parses
modulo the clock reading). -/
def setParsedAt (p : String) (d : EpubContent) : EpubContent :=
  { d with parsing := { d.parsing with parsedAt := p } }

/-- With the PRNG draws fixed, the ambient clock reaches the output only
through `parsing.parsedAt`: erasing that stamp makes two parses of the same
input equal. -/
theorem parse_clock_only_parsedAt (ops : EpubOps) (files : FileMap)
    (t1 t2 : String) (r : Nat → String) :
    (parseEpubContent ops files ⟨t1, r⟩).map (setParsedAt "") =
    (parseEpubContent ops files ⟨t2, r⟩).map (setParsedAt "") := by
  unfold parseEpubContent parseEpubBody
  cases files "META-INF/container.xml" with
  | none => rfl
  | some c =>
    dsimp only
    cases extractPackagePathFast ops c with
    | error e => rfl
    | ok pp =>
      dsimp only
      cases files pp with
      | none => rfl
      | some pf => rfl

/-! Resource-failure isolation. -/

/-- Whether the resource-loop iteration of a manifest item succeeds: only the
`btoa` call of the image branch can throw. -/
def resourceItemOk (ops : EpubOps) (files : FileMap) (pp : String)
    (item : ManifestItem) : Bool :=
  if "image/".data.isPrefixOf item.mediaType.data then
    match files (resolveHref pp item.href) with
    | some f =>
      match ops.btoa f with
      | .ok _ => true
      | .error _ => false
    | none => true
  else true

theorem resourceStep_error_exists (ops : EpubOps) (files : FileMap) (pp : String)
    (res : EpubResources) (item : ManifestItem)
    (h : resourceItemOk ops files pp item = false) :
    ∃ e, resourceStep ops files pp res item = .error e := by
  unfold resourceItemOk at h
  unfold resourceStep
  split
  · rename_i himg
    rw [if_pos himg] at h
    cases hf : files (resolveHref pp item.href) with
    | none => rw [hf] at h; simp at h
    | some f =>
      rw [hf] at h
      dsimp only at h ⊢
      cases hb : ops.btoa f with
      | ok b => rw [hb] at h; simp at h
      | error e => exact ⟨e, rfl⟩
  · rename_i himg
    rw [if_neg himg] at h
    cases h

theorem resourceStepCaught_of_fail (ops : EpubOps) (files : FileMap) (pp : String)
    (res : EpubResources) (item : ManifestItem)
    (h : resourceItemOk ops files pp item = false) :
    resourceStepCaught ops files pp res item = res := by
  obtain ⟨e, he⟩ := resourceStep_error_exists ops files pp res item h
  unfold resourceStepCaught
  rw [he]

/-- A failing iteration contributes nothing: folding over the manifest equals
folding over the sub-manifest of items whose iteration succeeds. -/
theorem resources_fold_filter (ops : EpubOps) (files : FileMap) (pp : String) :
    ∀ (manifest : List ManifestItem) (res : EpubResources),
      manifest.foldl (resourceStepCaught ops files pp) res =
      (manifest.filter (resourceItemOk ops files pp)).foldl
        (resourceStepCaught ops files pp) res := by
  intro manifest
  induction manifest with
  | nil => intro res; rfl
  | cons item rest ih =>
    intro res
    by_cases hok : resourceItemOk ops files pp item = true
    · rw [List.foldl_cons, List.filter_cons, hok]
      simp only [if_true]
      rw [List.foldl_cons]
      exact ih _
    · have hfail : resourceItemOk ops files pp item = false := by
        simpa using hok
      rw [List.foldl_cons, resourceStepCaught_of_fail ops files pp res item hfail,
        List.filter_cons, hfail]
      simp only [Bool.false_eq_true, if_false]
      exact ih res

/-! Cover selection. -/

/-- The cover-name test of line 3969-3971. -/
def isCoverMatch (item : ManifestItem) : Bool :=
  (item.properties.getD []).contains "cover-image"
    || containsSub (lowerStr item.href) "cover"
    || containsSub (lowerStr item.id) "cover"

/-- An image manifest item that the loop actually pushes: image media type,
file present, `btoa` succeeding. -/
def imageProcessed (ops : EpubOps) (files : FileMap) (pp : String)
    (item : ManifestItem) : Bool :=
  "image/".data.isPrefixOf item.mediaType.data &&
    (match files (resolveHref pp item.href) with
     | some f =>
       match ops.btoa f with
       | .ok _ => true
       | .error _ => false
     | none => false)

/-- The `base64` field the loop computes for a processed image. -/
def embedOf (ops : EpubOps) (files : FileMap) (pp : String)
    (item : ManifestItem) : Option String :=
  match files (resolveHref pp item.href) with
  | some f =>
    match ops.btoa f with
    | .ok b =>
      if f.length < 100000 then
        some ("data:" ++ item.mediaType ++ ";base64," ++ b)
      else none
    | .error _ => none
  | none => none

/-- Stated from the amended claim: the cover image is the `base64` field of
the last processed image in manifest order that passes the cover-name test
(absent when that image was too large to embed, or when nothing matches). -/
def coverImageSpec (ops : EpubOps) (files : FileMap) (pp : String)
    (manifest : List ManifestItem) : Option String :=
  match (manifest.filter
      (fun it => imageProcessed ops files pp it && isCoverMatch it)).getLast? with
  | some it => embedOf ops files pp it
  | none => none

theorem resourceStep_image_ok (ops : EpubOps) (files : FileMap) (pp : String)
    (res : EpubResources) (item : ManifestItem) (f b : String)
    (himg : "image/".data.isPrefixOf item.mediaType.data = true)
    (hf : files (resolveHref pp item.href) = some f) (hb : ops.btoa f = .ok b) :
    resourceStep ops files pp res item = .ok
      (let imageResource : ImageResource :=
        { id := item.id, href := item.href, mediaType := item.mediaType,
          base64 :=
            if f.length < 100000 then
              some ("data:" ++ item.mediaType ++ ";base64," ++ b)
            else none }
      let res2 : EpubResources := { res with images := res.images ++ [imageResource] }
      if isCoverMatch item then { res2 with coverImage := imageResource.base64 }
      else res2) := by
  unfold resourceStep
  rw [if_pos himg, hf]
  dsimp only
  rw [hb]
  dsimp only
  split
  · rename_i hcv
    rw [if_pos (show isCoverMatch item = true from hcv)]
  · rename_i hcv
    rw [if_neg (show ¬isCoverMatch item = true from hcv)]

theorem stepCaught_coverImage_match (ops : EpubOps) (files : FileMap) (pp : String)
    (res : EpubResources) (item : ManifestItem)
    (h : (imageProcessed ops files pp item && isCoverMatch item) = true) :
    (resourceStepCaught ops files pp res item).coverImage =
      embedOf ops files pp item := by
  simp only [Bool.and_eq_true] at h
  obtain ⟨hip, hcm⟩ := h
  unfold imageProcessed at hip
  simp only [Bool.and_eq_true] at hip
  obtain ⟨himg, hrest⟩ := hip
  cases hf : files (resolveHref pp item.href) with
  | none => rw [hf] at hrest; simp at hrest
  | some f =>
    rw [hf] at hrest
    dsimp only at hrest
    cases hb : ops.btoa f with
    | error e => rw [hb] at hrest; simp at hrest
    | ok b =>
      unfold resourceStepCaught
      rw [resourceStep_image_ok ops files pp res item f b himg hf hb]
      dsimp only
      rw [if_pos hcm]
      unfold embedOf
      rw [hf]
      dsimp only
      rw [hb]

theorem stepCaught_coverImage_other (ops : EpubOps) (files : FileMap) (pp : String)
    (res : EpubResources) (item : ManifestItem)
    (h : (imageProcessed ops files pp item && isCoverMatch item) = false) :
    (resourceStepCaught ops files pp res item).coverImage = res.coverImage := by
  by_cases hok : resourceItemOk ops files pp item = true
  · unfold resourceItemOk at hok
    by_cases himg : "image/".data.isPrefixOf item.mediaType.data = true
    · rw [if_pos himg] at hok
      cases hf : files (resolveHref pp item.href) with
      | none =>
        unfold resourceStepCaught resourceStep
        rw [if_pos himg, hf]
        rfl
      | some f =>
        rw [hf] at hok
        dsimp only at hok
        cases hb : ops.btoa f with
        | error e => rw [hb] at hok; simp at hok
        | ok b =>
          have hcm : isCoverMatch item = false := by
            have hip : imageProcessed ops files pp item = true := by
              unfold imageProcessed
              rw [himg, hf]
              dsimp only
              rw [hb]
              rfl
            rw [hip] at h
            simpa using h
          unfold resourceStepCaught
          rw [resourceStep_image_ok ops files pp res item f b himg hf hb]
          dsimp only
          rw [if_neg (by simp [hcm])]
    · have himg2 : "image/".data.isPrefixOf item.mediaType.data = false := by
        simp only [Bool.not_eq_true] at himg
        exact himg
      unfold resourceStepCaught resourceStep
      rw [if_neg (by simp [himg2])]
      by_cases hcss : (item.mediaType == "text/css") = true
      · rw [if_pos hcss]
        cases hcf : files (resolveHref pp item.href) with
        | some cssFile => rfl
        | none => rfl
      · rw [if_neg hcss]
        by_cases hfont : (containsSub item.mediaType "font"
            || containsSub (lowerStr item.href) ".ttf"
            || containsSub (lowerStr item.href) ".otf"
            || containsSub (lowerStr item.href) ".woff") = true
        · rw [if_pos hfont]
          rfl
        · rw [if_neg hfont]
          rfl
  · have hfail : resourceItemOk ops files pp item = false := by simpa using hok
    rw [resourceStepCaught_of_fail ops files pp res item hfail]

theorem getLast?_cons_eq {α : Type} (a : α) (l : List α) :
    (a :: l).getLast? = some ((l.getLast?).getD a) := by
  induction l generalizing a with
  | nil => rfl
  | cons b m ih =>
    rw [List.getLast?_cons_cons, ih b]
    rfl

theorem resources_fold_cover (ops : EpubOps) (files : FileMap) (pp : String) :
    ∀ (manifest : List ManifestItem) (res : EpubResources),
      (manifest.foldl (resourceStepCaught ops files pp) res).coverImage =
      (match (manifest.filter
          (fun it => imageProcessed ops files pp it && isCoverMatch it)).getLast? with
       | some it => embedOf ops files pp it
       | none => res.coverImage) := by
  intro manifest
  induction manifest with
  | nil => intro res; rfl
  | cons item rest ih =>
    intro res
    by_cases hp : (imageProcessed ops files pp item && isCoverMatch item) = true
    · rw [List.foldl_cons, ih, List.filter_cons, hp]
      simp only [if_true]
      rw [getLast?_cons_eq]
      cases hlast : (rest.filter
          (fun it => imageProcessed ops files pp it && isCoverMatch it)).getLast? with
      | none => exact stepCaught_coverImage_match ops files pp res item hp
      | some y => rfl
    · have hp2 : (imageProcessed ops files pp item && isCoverMatch item) = false := by
        simpa using hp
      rw [List.foldl_cons, ih, List.filter_cons, hp2]
      simp only [Bool.false_eq_true, if_false]
      cases (rest.filter
          (fun it => imageProcessed ops files pp it && isCoverMatch it)).getLast? with
      | none => exact stepCaught_coverImage_other ops files pp res item hp2
      | some y => rfl

theorem embedOf_data_prefix (ops : EpubOps) (files : FileMap) (pp : String)
    (item : ManifestItem) (s : String)
    (h : embedOf ops files pp item = some s) :
    "data:".data.isPrefixOf s.data = true := by
  unfold embedOf at h
  cases hf : files (resolveHref pp item.href) with
  | none => rw [hf] at h; cases h
  | some f =>
    rw [hf] at h
    dsimp only at h
    cases hb : ops.btoa f with
    | error e => rw [hb] at h; cases h
    | ok b =>
      rw [hb] at h
      dsimp only at h
      by_cases hlen : f.length < 100000
      · rw [if_pos hlen] at h
        have hs := (Option.some.injEq _ _).mp h
        rw [← hs]
        have hd : ("data:" ++ item.mediaType ++ ";base64," ++ b).data =
            "data:".data ++ (item.mediaType.data ++ (";base64,".data ++ b.data)) := by
          simp [String.data_append, List.append_assoc]
        rw [hd]
        rw [List.isPrefixOf_iff_prefix]
        exact List.prefix_append _ _
      · rw [if_neg hlen] at h
        cases h

/-! No stage before resource extraction reads the `btoa` field, which the
following congruence lemmas make explicit. -/

theorem processFileAnchors_btoa (ops : EpubOps) (b1 b2 : String → Except String String)
    (html : String) (mi : ManifestItem) :
    processFileAnchors { ops with btoa := b1 } html mi =
    processFileAnchors { ops with btoa := b2 } html mi := by
  funext anchors st
  induction anchors generalizing st with
  | nil => rfl
  | cons a rest ih =>
    unfold processFileAnchors
    dsimp only
    split
    · exact ih _
    · split
      · exact ih _
      · exact ih _

theorem processAnchorGroups_btoa (ops : EpubOps) (b1 b2 : String → Except String String)
    (files : FileMap) (pp : String) (manifest : List ManifestItem) :
    processAnchorGroups { ops with btoa := b1 } files pp manifest =
    processAnchorGroups { ops with btoa := b2 } files pp manifest := by
  funext groups st
  induction groups generalizing st with
  | nil => rfl
  | cons g rest ih =>
    obtain ⟨fileName, anchors⟩ := g
    unfold processAnchorGroups
    dsimp only
    simp only [processFileAnchors_btoa ops b1 b2]
    exact ih _

theorem processSpineChapters_btoa (ops : EpubOps) (b1 b2 : String → Except String String)
    (files : FileMap) (pp : String) (manifest : List ManifestItem)
    (tm : List (String × TocEntry)) :
    processSpineChapters { ops with btoa := b1 } files pp manifest tm =
    processSpineChapters { ops with btoa := b2 } files pp manifest tm := by
  funext spine st
  induction spine generalizing st with
  | nil => rfl
  | cons s rest ih =>
    unfold processSpineChapters
    dsimp only
    cases manifest.find? (fun item => item.id == s.idref) with
    | none => exact ih _
    | some mi =>
      cases files (resolveHref pp mi.href) with
      | none => exact ih _
      | some htmlContent =>
        split
        · exact ih _
        · exact ih _

theorem parsePackageDocumentFast_btoa (ops : EpubOps)
    (b1 b2 : String → Except String String) :
    parsePackageDocumentFast { ops with btoa := b1 } =
    parsePackageDocumentFast { ops with btoa := b2 } := rfl

theorem navigationStage_btoa (ops : EpubOps) (b1 b2 : String → Except String String)
    (rand : Nat → String) (files : FileMap) (pp : String) (pd : PackageData) :
    navigationStage { ops with btoa := b1 } rand files pp pd =
    navigationStage { ops with btoa := b2 } rand files pp pd := by
  have h1 : parseNavigationDocumentFast { ops with btoa := b1 } =
      parseNavigationDocumentFast { ops with btoa := b2 } := rfl
  have h2 : parseNCXDocument { ops with btoa := b1 } =
      parseNCXDocument { ops with btoa := b2 } := rfl
  unfold navigationStage
  rw [h1, h2]

theorem chapterStage_btoa (ops : EpubOps) (b1 b2 : String → Except String String)
    (files : FileMap) (pp : String) (pd : PackageData) (toc : TocForest)
    (tm : List (String × TocEntry)) :
    chapterStage { ops with btoa := b1 } files pp pd toc tm =
    chapterStage { ops with btoa := b2 } files pp pd toc tm := by
  unfold chapterStage
  rw [processAnchorGroups_btoa ops b1 b2, processSpineChapters_btoa ops b1 b2]

set_option maxHeartbeats 1000000 in
/-- The behaviour of the `btoa` builtin — the one operation that can fail
inside the resource loop — does not reach the `parsing` diagnostics of the
returned document: resource failures are never recorded there. -/
theorem parse_btoa_parsing_indep (ops : EpubOps)
    (b1 b2 : String → Except String String) (files : FileMap) (env : ParseEnv) :
    (parseEpubContent { ops with btoa := b1 } files env).map (fun d => d.parsing) =
    (parseEpubContent { ops with btoa := b2 } files env).map (fun d => d.parsing) := by
  unfold parseEpubContent parseEpubBody
  have he : extractPackagePathFast { ops with btoa := b2 } =
      extractPackagePathFast { ops with btoa := b1 } := rfl
  rw [he]
  cases files "META-INF/container.xml" with
  | none => rfl
  | some c =>
    dsimp only
    cases extractPackagePathFast { ops with btoa := b1 } c with
    | error e => rfl
    | ok pp =>
      dsimp only
      cases files pp with
      | none => rfl
      | some pf =>
        dsimp only [Except.map]
        simp only [parsePackageDocumentFast_btoa ops b2 b1,
          navigationStage_btoa ops b2 b1, chapterStage_btoa ops b2 b1]

/-! Source `extractChapterTitleEnhanced` (lines 3187-3240), embedded for the
library-free configuration.  Its five fallback regexes capture the first tag
text; the captures are deterministic once the greedy backtracking order is
spelled out, because a class quantifier can never cross its excluded
character. -/

/-- Leftmost-match capture of one `/<TAG[^>]*>([^<]+)<\/TAG>/i` attempt at one
start position: `[^>]*` is forced to stop at the first `>`, the capture
`[^<]+` at the first `<` (where the closing tag must follow); shrinking either
quantifier would put an excluded character under a literal, so backtracking
cannot produce a different split. -/
def tagCaptureAt (tag : String) (s : List Char) : Option (List Char) :=
  match stripPrefixCI ("<" ++ tag).data s with
  | none => none
  | some rest =>
    let attrs := rest.takeWhile (fun c => c ≠ '>')
    match rest.drop attrs.length with
    | '>' :: s1 =>
      let cap := s1.takeWhile (fun c => c ≠ '<')
      if cap.isEmpty then none
      else
        match stripPrefixCI ("</" ++ tag ++ ">").data (s1.drop cap.length) with
        | some _ => some cap
        | none => none
    | _ => none

/-- Decreasing search `n, n-1, ..., 0`: the greedy longest-first order in
which the JavaScript engine backtracks a variable-length quantifier. -/
def firstSomeDec (f : Nat → Option α) : Nat → Option α
  | 0 => f 0
  | Nat.succ n =>
    match f (Nat.succ n) with
    | some r => some r
    | none => firstSomeDec f n

/-- Leftmost-match capture of
`/<p[^>]*class="[^"]*title[^"]*"[^>]*>([^<]+)<\/p>/i` at one start position.
The two leading variable-length quantifiers backtrack greedily
(`firstSomeDec`, inner one first, as the engine does); `[^>]*` cannot cross a
`>` and `[^"]*` cannot cross a `"`, which bounds the candidate lengths, and
the trailing quantifiers and the capture are forced as in `tagCaptureAt`. -/
def pClassTitleAt (s : List Char) : Option (List Char) :=
  match stripPrefixCI "<p".data s with
  | none => none
  | some rest =>
    let run1 := rest.takeWhile (fun c => c ≠ '>')
    firstSomeDec (fun j =>
      match stripPrefixCI "class=\"".data (rest.drop j) with
      | none => none
      | some s1 =>
        let run2 := s1.takeWhile (fun c => c ≠ '"')
        firstSomeDec (fun k =>
          match stripPrefixCI "title".data (s1.drop k) with
          | none => none
          | some s2 =>
            let mid := s2.takeWhile (fun c => c ≠ '"')
            match s2.drop mid.length with
            | '"' :: s3 =>
              let attrs2 := s3.takeWhile (fun c => c ≠ '>')
              match s3.drop attrs2.length with
              | '>' :: s4 =>
                let cap := s4.takeWhile (fun c => c ≠ '<')
                if cap.isEmpty then none
                else
                  match stripPrefixCI "</p>".data (s4.drop cap.length) with
                  | some _ => some cap
                  | none => none
              | _ => none
            | _ => none) run2.length) run1.length

/-- The five fallback title patterns (lines 3209-3215), in source order. -/
def titlePatternList : List (List Char → Option (List Char)) :=
  [tagCaptureAt "title", tagCaptureAt "h1", tagCaptureAt "h2", tagCaptureAt "h3",
   pClassTitleAt]

/-- The pattern loop (lines 3218-3226): the first pattern that matches with a
nonempty trimmed capture returns that trimmed capture; a match whose capture
trims to empty falls through to the next pattern. -/
def tryTitlePatterns : List (List Char → Option (List Char)) → String → Option String
  | [], _ => none
  | p :: rest, html =>
    match scanFirst p html.data with
    | some cap =>
      let t := jsTrim (String.mk cap)
      if t ≠ "" then some t else tryTitlePatterns rest html
    | none => tryTitlePatterns rest html

/-- JavaScript `String.length`: UTF-16 code units. -/
def jsLength (s : String) : Nat :=
  s.data.foldl (fun n c => n + if 0x10000 ≤ c.toNat then 2 else 1) 0

/-- `manifestId.replace(/^(id|chapter|ch|chap)/i, 'Chapter ')` (line 3233):
anchored; the first alternative that matches, in source order, is replaced
(`ch` shadows `chap`). -/
def replaceIdPrefix (manifestId : String) : String :=
  match stripPrefixCI "id".data manifestId.data with
  | some rest => "Chapter " ++ String.mk rest
  | none =>
    match stripPrefixCI "chapter".data manifestId.data with
    | some rest => "Chapter " ++ String.mk rest
    | none =>
      match stripPrefixCI "ch".data manifestId.data with
      | some rest => "Chapter " ++ String.mk rest
      | none =>
        match stripPrefixCI "chap".data manifestId.data with
        | some rest => "Chapter " ++ String.mk rest
        | none => manifestId

/-- Source `extractChapterTitleEnhanced` (lines 3187-3240) in the library-free
configuration: with `xmlParser` unavailable the candidates branch (3190-3206)
is skipped and the regex fallback runs; nothing in the fallback can throw, so
the catch (3236-3239) is dead.  First-sentence rule (3229-3232): the text
before the first `.`, trimmed, is used when its JS length is strictly between
5 and 100. -/
def extractChapterTitleEnhancedImpl (htmlContent textContent manifestId : String) :
    String :=
  match tryTitlePatterns titlePatternList htmlContent with
  | some t => t
  | none =>
    let firstSentence := jsTrim (((splitOnC '.' textContent).head?).getD "")
    if 5 < jsLength firstSentence && jsLength firstSentence < 100 then firstSentence
    else replaceIdPrefix manifestId

/-! Concrete fixtures used by the witness and counterexample theorems: a
minimal well-formed archive, parsed with the library-free configuration (all
regex fallback paths) and byte-transparent text operations. -/

/-- Concrete ops: fast-xml-parser unavailable (every parser takes its concrete
regex fallback), slicing and normalization byte-transparent, a fixed extracted
title, and an identity `btoa`. -/
def opsW : EpubOps :=
  { xmlParse := none,
    sliceSection := fun html _ _ => html,
    extractTextFromHtml := fun s => s,
    extractFormattedHtml := fun s => s,
    extractChapterTitleEnhanced := fun _ _ _ => "Extracted Title",
    btoa := fun s => .ok s }

/-- A clock reading. -/
def envW : ParseEnv := { now := "2026-02-03T04:05:06.000Z", rand := fun _ => "r" }

/-- A later clock reading with the same PRNG draws. -/
def envW2 : ParseEnv := { now := "2026-02-03T09:09:09.000Z", rand := fun _ => "r" }

def containerW : String :=
  "<container><rootfiles><rootfile full-path=\"OEBPS/content.opf\"/></rootfiles></container>"

/-- Package document with a single chapter whose spine itemref carries
`linear="no"`. -/
def opfW : String :=
  "<package version=\"2.0\"><metadata><dc:title>My Book</dc:title>" ++
  "<dc:creator>Ann</dc:creator></metadata><manifest>" ++
  "<item id=\"ch1\" href=\"ch1.xhtml\" media-type=\"application/xhtml+xml\"/>" ++
  "</manifest><spine><itemref idref=\"ch1\" linear=\"no\"/></spine></package>"

/-- Chapter content: 25 ordinary words, matching no front-matter pattern. -/
def ch1W : String :=
  "alpha beta gamma delta epsilon zeta eta theta iota kappa lambda mu nu xi " ++
  "omicron pi rho sigma tau upsilon phi chi psi omega aleph"

def filesW : FileMap := fun p =>
  if p = "META-INF/container.xml" then some containerW
  else if p = "OEBPS/content.opf" then some opfW
  else if p = "OEBPS/ch1.xhtml" then some ch1W
  else none

/-- An archive with no entries at all (in particular no container.xml). -/
def filesNone : FileMap := fun _ => none

/-- Package document with two cover-named images in manifest order. -/
def opf8 : String :=
  "<package version=\"3.0\"><metadata><dc:title>B</dc:title></metadata><manifest>" ++
  "<item id=\"coverA\" href=\"c1.png\" media-type=\"image/png\"/>" ++
  "<item id=\"coverB\" href=\"c2.png\" media-type=\"image/png\"/>" ++
  "</manifest><spine></spine></package>"

def files8 : FileMap := fun p =>
  if p = "META-INF/container.xml" then some containerW
  else if p = "OEBPS/content.opf" then some opf8
  else if p = "OEBPS/c1.png" then some "IMGONE"
  else if p = "OEBPS/c2.png" then some "IMGTWO"
  else none

/-- The manifest `opf8` parses to, used to address the resource extractor
directly. -/
def manifest8 : List ManifestItem :=
  [{ id := "coverA", href := "c1.png", mediaType := "image/png", properties := none },
   { id := "coverB", href := "c2.png", mediaType := "image/png", properties := none }]

/-- Ops whose `btoa` throws on one specific image payload. -/
def ops9 : EpubOps :=
  { opsW with btoa := fun s =>
      if s = "BADIMG" then .error "RangeError: Maximum call stack size exceeded"
      else .ok s }

/-- Package document with a failing image, a good image and a stylesheet. -/
def opf9 : String :=
  "<package version=\"3.0\"><metadata><dc:title>B</dc:title></metadata><manifest>" ++
  "<item id=\"imgbad\" href=\"bad.png\" media-type=\"image/png\"/>" ++
  "<item id=\"imggood\" href=\"good.png\" media-type=\"image/png\"/>" ++
  "<item id=\"css1\" href=\"style.css\" media-type=\"text/css\"/>" ++
  "</manifest><spine></spine></package>"

def files9 : FileMap := fun p =>
  if p = "META-INF/container.xml" then some containerW
  else if p = "OEBPS/content.opf" then some opf9
  else if p = "OEBPS/bad.png" then some "BADIMG"
  else if p = "OEBPS/good.png" then some "GOODIMG"
  else if p = "OEBPS/style.css" then some "bodycss"
  else none

/-- Ops whose title extractor is the source's own
`extractChapterTitleEnhanced` (library-free configuration). -/
def opsC6 : EpubOps :=
  { opsW with extractChapterTitleEnhanced := extractChapterTitleEnhancedImpl }

/-- EPUB 3 navigation document whose single TOC entry is titled
`Introduction` — a front-matter-vocabulary title. -/
def navC6 : String :=
  "<nav epub:type=\"toc\"><ol><li><a href=\"ch1.xhtml\">Introduction</a></li></ol></nav>"

/-- Package document with a nav document and one spine chapter. -/
def opfC6 : String :=
  "<package version=\"3.0\"><metadata><dc:title>B</dc:title></metadata><manifest>" ++
  "<item id=\"nav\" href=\"nav.xhtml\" media-type=\"application/xhtml+xml\" properties=\"nav\"/>" ++
  "<item id=\"ch1\" href=\"ch1.xhtml\" media-type=\"application/xhtml+xml\"/>" ++
  "</manifest><spine><itemref idref=\"ch1\"/></spine></package>"

/-- Chapter whose heading repeats the TOC title `Introduction`, over enough
body text to pass the front-matter classifier. -/
def ch1C6 : String := "<h1>Introduction</h1> " ++ ch1W

def filesC6 : FileMap := fun p =>
  if p = "META-INF/container.xml" then some containerW
  else if p = "OEBPS/content.opf" then some opfC6
  else if p = "OEBPS/nav.xhtml" then some navC6
  else if p = "OEBPS/ch1.xhtml" then some ch1C6
  else none

/-- An inert document, the fallback value of `docW`. -/
def emptyDoc : EpubContent :=
  { metadata :=
      { title := .undef, author := .undef, language := .undef, identifier := .undef,
        publisher := .undef, publishedDate := .undef, description := .undef,
        subject := [], rights := .undef, source := .undef },
    struct :=
      { totalChapters := 0, estimatedReadingTime := 0, wordCount := 0,
        tableOfContents := .nil, spine := [] },
    chapters := [],
    resources := { coverImage := none, images := [], stylesheets := [], fonts := [] },
    parsing := { parsedAt := "", epubVersion := "", parser := "", errors := none,
                 warnings := none } }

/-- The document produced by parsing the basic fixture. -/
def docW : EpubContent :=
  match parseEpubContent opsW filesW envW with
  | .ok d => d
  | .error _ => emptyDoc

set_option maxRecDepth 10000 in
/-- The basic fixture parses successfully, to `docW`. -/
theorem parseW_ok : parseEpubContent opsW filesW envW = .ok docW := rfl

/-! The claims. -/

/-- C1: in every document the parser returns, the chapter `order` fields are
exactly `0, 1, ..., chapters.length - 1` — dense, gapless and duplicate-free —
on the anchor-driven path and the spine-driven fallback path alike. -/
theorem c1_chapter_orders_dense (ops : EpubOps) (files : FileMap) (env : ParseEnv)
    (doc : EpubContent) (h : parseEpubContent ops files env = .ok doc) :
    doc.chapters.map (fun c => c.order) = List.range doc.chapters.length := by
  obtain ⟨pp, pd, toc, hch, -, -, -⟩ := parseEpubContent_ok_shape ops files env doc h
  rw [hch]
  exact (chapterStage_stOk ops files pp pd toc (buildTocMapping toc [])).2.1

set_option maxRecDepth 10000 in
/-- C1 witness: the concrete fixture document. -/
theorem c1_chapter_orders_dense_witness :
    docW.chapters.map (fun c => c.order) = List.range docW.chapters.length :=
  c1_chapter_orders_dense opsW filesW envW docW parseW_ok

/-- C2: in every document the parser returns, `structure.totalChapters` is the
number of returned chapters and `structure.wordCount` is exactly the sum of the
returned chapters' `wordCount` fields (skipped sections are not counted). -/
theorem c2_structure_totals (ops : EpubOps) (files : FileMap) (env : ParseEnv)
    (doc : EpubContent) (h : parseEpubContent ops files env = .ok doc) :
    doc.struct.totalChapters = doc.chapters.length ∧
    doc.struct.wordCount = (doc.chapters.map (fun c => c.wordCount)).sum := by
  obtain ⟨pp, pd, toc, hch, htot, hwc, -⟩ := parseEpubContent_ok_shape ops files env doc h
  constructor
  · rw [htot, hch]
  · rw [hwc, hch]
    exact (chapterStage_stOk ops files pp pd toc (buildTocMapping toc [])).2.2

set_option maxRecDepth 10000 in
/-- C2 witness: the concrete fixture document. -/
theorem c2_structure_totals_witness :
    docW.struct.totalChapters = docW.chapters.length ∧
    docW.struct.wordCount = (docW.chapters.map (fun c => c.wordCount)).sum :=
  c2_structure_totals opsW filesW envW docW parseW_ok

/-- C3: an archive with no `META-INF/container.xml` entry makes the parse abort
with a fatal error; no document is produced. -/
theorem c3_missing_container_fatal (ops : EpubOps) (files : FileMap) (env : ParseEnv)
    (h : files "META-INF/container.xml" = none) :
    parseEpubContent ops files env =
      .error "EPUB parsing failed: Invalid EPUB: META-INF/container.xml not found" := by
  unfold parseEpubContent parseEpubBody
  rw [h]
  rfl

/-- C3 witness: the empty archive. -/
theorem c3_missing_container_fatal_witness :
    parseEpubContent opsW filesNone envW =
      .error "EPUB parsing failed: Invalid EPUB: META-INF/container.xml not found" :=
  c3_missing_container_fatal opsW filesNone envW rfl

/-- C4 (amended): the parser reads the ambient clock and the PRNG, so it is
deterministic only modulo those: with the PRNG draws fixed, two invocations on
the same input agree on every field except `parsing.parsedAt`, which carries
the clock reading. -/
theorem c4_deterministic_modulo_clock (ops : EpubOps) (files : FileMap)
    (t1 t2 : String) (r : Nat → String) :
    (parseEpubContent ops files ⟨t1, r⟩).map (setParsedAt "") =
    (parseEpubContent ops files ⟨t2, r⟩).map (setParsedAt "") :=
  parse_clock_only_parsedAt ops files t1 t2 r

set_option maxRecDepth 10000 in
/-- C4 counterexample to the claim as stated: the same archive parsed at two
clock readings yields different documents (their `parsing.parsedAt` stamps
differ), so parse output is not a function of the archive alone. -/
theorem c4_counterexample :
    parseEpubContent opsW filesW envW ≠ parseEpubContent opsW filesW envW2 := by
  intro h
  have h1 : (parseEpubContent opsW filesW envW).map (fun d => d.parsing.parsedAt) =
      .ok "2026-02-03T04:05:06.000Z" := rfl
  have h2 : (parseEpubContent opsW filesW envW2).map (fun d => d.parsing.parsedAt) =
      .ok "2026-02-03T09:09:09.000Z" := rfl
  rw [h] at h1
  rw [h1] at h2
  exact absurd (Except.ok.inj h2) (by decide)

set_option maxRecDepth 10000 in
/-- C5: the classifier does return `true` for a `linear="no"` flag (first
conjunct), but the pipeline never passes the spine's linear flag to it — the
`ManifestItem` records it consults have no `linear` field — so a section whose
spine itemref carries `linear="no"` is NOT excluded: the fixture's only such
section comes back as a chapter, its spine entry recording `linear = false`. -/
theorem c5_linear_no_chapter_retained :
    isFrontMatterPage ch1W ch1W (countWords ch1W) (some "no") = true ∧
    (parseEpubContent opsW filesW envW).map
      (fun d => (d.chapters.map (fun c => c.href),
                 d.struct.spine.map (fun s => (s.id, s.linear)))) =
      .ok (["ch1.xhtml"], [("ch1", false)]) := by
  refine ⟨isFrontMatterPage_linear_no ch1W ch1W (countWords ch1W), ?_⟩
  rfl

/-- C6 (amended): the title selection never takes a front-matter TOC title —
on the anchor path a section whose TOC title is in the vocabulary is skipped
outright, and on the spine path a TOC title is used only after passing the
`isFrontMatterTitle` check — so every returned chapter's displayed title
either is not in the vocabulary or was produced by the content-title
extractor on the chapter's own section; the extractor's output is used
unchecked, which is the only way a vocabulary word can still be displayed. -/
theorem c6_toc_front_matter_title_never_selected (ops : EpubOps) (files : FileMap)
    (env : ParseEnv) (doc : EpubContent)
    (h : parseEpubContent ops files env = .ok doc) :
    tocTitleNeverUsedWhenFrontMatter ops doc.chapters := by
  obtain ⟨pp, pd, toc, hch, -, -, -⟩ := parseEpubContent_ok_shape ops files env doc h
  rw [hch]
  exact chapterStage_titleProv ops files pp pd toc (buildTocMapping toc [])

set_option maxRecDepth 10000 in
/-- C6 witness: the concrete fixture document. -/
theorem c6_toc_front_matter_title_never_selected_witness :
    tocTitleNeverUsedWhenFrontMatter opsW docW.chapters :=
  c6_toc_front_matter_title_never_selected opsW filesW envW docW parseW_ok

set_option maxRecDepth 10000 in
/-- C6 counterexample to the claim as stated: with the source's own title
extractor, an archive whose TOC entry for `ch1.xhtml` is titled
`Introduction` — a front-matter-vocabulary title — returns a chapter whose
displayed title is that same `Introduction`: the spine path rejects the TOC
title, but the unchecked extractor recovers it from the section's `<h1>`
heading. -/
theorem c6_counterexample :
    isFrontMatterTitle "Introduction" = true ∧
    (parseEpubContent opsC6 filesC6 envW).map
      (fun d => ((buildTocMapping d.struct.tableOfContents []).map
          (fun p => (p.1, p.2.title)),
        d.chapters.map (fun c => (c.title, c.href)))) =
      .ok ([("ch1.xhtml", "Introduction")], [("Introduction", "ch1.xhtml")]) :=
  ⟨by decide, rfl⟩

/-- C7: a section of fewer than 20 words never appears in the returned
chapters: every returned chapter's plain text counts at least 20 words, on the
anchor-driven path and the spine-driven fallback path alike. -/
theorem c7_short_sections_dropped (ops : EpubOps) (files : FileMap)
    (env : ParseEnv) (doc : EpubContent)
    (h : parseEpubContent ops files env = .ok doc) :
    doc.chapters.all (fun c => decide (20 ≤ countWords c.textContent)) = true := by
  obtain ⟨pp, pd, toc, hch, -, -, -⟩ := parseEpubContent_ok_shape ops files env doc h
  rw [hch, List.all_eq_true]
  intro c hc
  exact decide_eq_true
    (chapterStage_wc ops files pp pd toc (buildTocMapping toc []) c hc)

set_option maxRecDepth 10000 in
/-- C7 witness: the concrete fixture document. -/
theorem c7_short_sections_dropped_witness :
    docW.chapters.all (fun c => decide (20 ≤ countWords c.textContent)) = true :=
  c7_short_sections_dropped opsW filesW envW docW parseW_ok

/-- C8 (amended): `resources.coverImage` comes from the LAST processed image
matching the cover test in manifest order — each match overwrites the previous
cover — and whenever it is present it is a `data:` base64 URI, never a bare
archive-relative path. -/
theorem c8_cover_selection (ops : EpubOps) (files : FileMap) (pp : String)
    (manifest : List ManifestItem) :
    (processEpubResourcesFast ops files manifest pp).coverImage =
      coverImageSpec ops files pp manifest ∧
    ∀ s, (processEpubResourcesFast ops files manifest pp).coverImage = some s →
      "data:".data.isPrefixOf s.data = true := by
  have hfold := resources_fold_cover ops files pp manifest
    { coverImage := none, images := [], stylesheets := [], fonts := [] }
  constructor
  · unfold processEpubResourcesFast coverImageSpec
    rw [hfold]
  · intro s hs
    unfold processEpubResourcesFast at hs
    rw [hfold] at hs
    cases hl : (manifest.filter
        (fun it => imageProcessed ops files pp it && isCoverMatch it)).getLast? with
    | none => rw [hl] at hs; exact Option.noConfusion hs
    | some it => rw [hl] at hs; exact embedOf_data_prefix ops files pp it s hs

set_option maxRecDepth 10000 in
/-- C8 counterexample to "first image in manifest order": with two matching
cover images the returned cover is the embedding of the SECOND (last), while
the first matching image is the first entry of `resources.images`. -/
theorem c8_counterexample :
    (parseEpubContent opsW files8 envW).map
      (fun d => (d.resources.coverImage, d.resources.images.map (fun i => i.base64))) =
      .ok (some "data:image/png;base64,IMGTWO",
           [some "data:image/png;base64,IMGONE", some "data:image/png;base64,IMGTWO"]) ∧
    (some "data:image/png;base64,IMGTWO" : Option String) ≠
      some "data:image/png;base64,IMGONE" :=
  ⟨rfl, by decide⟩

/-- C9 (amended): a manifest item whose resource step fails is skipped — the
resource fold equals the fold over the non-failing items only, so one failure
never aborts the rest — but the failure is recorded nowhere in the returned
document: the `parsing` diagnostics (warnings included) are independent of the
`btoa` embedder, so an extraction failure leaves no warnings entry. -/
theorem c9_resource_failures_skipped_unrecorded :
    (∀ (ops : EpubOps) (files : FileMap) (pp : String)
        (manifest : List ManifestItem) (res : EpubResources),
      manifest.foldl (resourceStepCaught ops files pp) res =
      (manifest.filter (resourceItemOk ops files pp)).foldl
        (resourceStepCaught ops files pp) res) ∧
    (∀ (ops : EpubOps) (b1 b2 : String → Except String String)
        (files : FileMap) (env : ParseEnv),
      (parseEpubContent { ops with btoa := b1 } files env).map (fun d => d.parsing) =
      (parseEpubContent { ops with btoa := b2 } files env).map (fun d => d.parsing)) :=
  ⟨fun ops files pp manifest res => resources_fold_filter ops files pp manifest res,
   fun ops b1 b2 files env => parse_btoa_parsing_indep ops b1 b2 files env⟩

set_option maxRecDepth 10000 in
/-- C9 counterexample to "recorded as a warning": an archive whose first image
makes `btoa` throw parses with NO warnings entry (and no errors entry), while
the remaining image and stylesheet are still extracted. -/
theorem c9_counterexample :
    (parseEpubContent ops9 files9 envW).map
      (fun d => (d.parsing.warnings, d.parsing.errors,
                 d.resources.images.map (fun i => i.id), d.resources.stylesheets)) =
      .ok (none, none, ["imggood"], ["bodycss"]) := rfl

/-- C10: in every document the parser returns, `parsing.errors` is absent:
the errors accumulator is declared but never appended to on any path. -/
theorem c10_errors_always_absent (ops : EpubOps) (files : FileMap)
    (env : ParseEnv) (doc : EpubContent)
    (h : parseEpubContent ops files env = .ok doc) :
    doc.parsing.errors = none := by
  obtain ⟨-, -, -, -, -, -, he⟩ := parseEpubContent_ok_shape ops files env doc h
  exact he

set_option maxRecDepth 10000 in
/-- C10 witness: the concrete fixture document. -/
theorem c10_errors_always_absent_witness : docW.parsing.errors = none :=
  c10_errors_always_absent opsW filesW envW docW parseW_ok

end BibEpub
